import Mathlib

/-!
Verification development for the ZeroPoint dipole particle simulator
(`dipole-worker.js` plus the embedding page).  The worker's global state,
its math kernel (Vec3 / Quat / Mat4), the pool of particle slots, the
per-tick simulation step and the message handlers are shallowly embedded
below.  JavaScript numbers are modelled as exact reals; the flat
Float32Array matrix buffers are modelled per 16-float slot; `Math.random`
is modelled as a stream of draws in `[0,1)` consumed in call order; heap
identity of the transferable `ArrayBuffer`s is modelled with an allocation
generation counter, and `postMessage` of a buffer pair is modelled by
appending the pair to a `posted` log.
-/

namespace DipoleWorker

noncomputable section

/-- Vector with three real components, as built by `Vec3.create`/`Vec3.set`
in the worker. -/
structure Vec3 where
  x : ℝ
  y : ℝ
  z : ℝ
deriving DecidableEq

/-- Quaternion components, as built by `Quat.create`. -/
structure Quat where
  x : ℝ
  y : ℝ
  z : ℝ
  w : ℝ

/-- Column-major 4x4 matrix, one field per cell of the source's length-16
`Float32Array`. -/
structure Mat4 where
  m0 : ℝ
  m1 : ℝ
  m2 : ℝ
  m3 : ℝ
  m4 : ℝ
  m5 : ℝ
  m6 : ℝ
  m7 : ℝ
  m8 : ℝ
  m9 : ℝ
  m10 : ℝ
  m11 : ℝ
  m12 : ℝ
  m13 : ℝ
  m14 : ℝ
  m15 : ℝ

/-- Squared Euclidean length of a `Vec3`. -/
def Vec3.normSq (v : Vec3) : ℝ := v.x * v.x + v.y * v.y + v.z * v.z

/-- `Vec3.normalize(out, a)` from the worker: when `a` has positive squared
length it stores `a` scaled to unit length, otherwise it leaves `out`
untouched and returns it as-is. -/
def Vec3.normalize (out a : Vec3) : Vec3 :=
  let len := a.x * a.x + a.y * a.y + a.z * a.z
  if 0 < len then
    let inv := 1 / Real.sqrt len
    ⟨a.x * inv, a.y * inv, a.z * inv⟩
  else out

/-- `Quat.setFromAxisAngle` from the worker. -/
def Quat.setFromAxisAngle (axis : Vec3) (angle : ℝ) : Quat :=
  let halfAngle := angle / 2
  let s := Real.sin halfAngle
  ⟨axis.x * s, axis.y * s, axis.z * s, Real.cos halfAngle⟩

/-- `Quat.multiply(out, a, b)` from the worker (Hamilton product `a * b`). -/
def Quat.multiply (a b : Quat) : Quat :=
  ⟨a.x * b.w + a.w * b.x + a.y * b.z - a.z * b.y,
   a.y * b.w + a.w * b.y + a.z * b.x - a.x * b.z,
   a.z * b.w + a.w * b.z + a.x * b.y - a.y * b.x,
   a.w * b.w - a.x * b.x - a.y * b.y - a.z * b.z⟩

/-- `Quat.setFromEuler` from the worker (XYZ order). -/
def Quat.setFromEuler (euler : Vec3) : Quat :=
  let c1 := Real.cos (euler.x / 2)
  let c2 := Real.cos (euler.y / 2)
  let c3 := Real.cos (euler.z / 2)
  let s1 := Real.sin (euler.x / 2)
  let s2 := Real.sin (euler.y / 2)
  let s3 := Real.sin (euler.z / 2)
  ⟨s1 * c2 * c3 + c1 * s2 * s3,
   c1 * s2 * c3 - s1 * c2 * s3,
   c1 * c2 * s3 + s1 * s2 * c3,
   c1 * c2 * c3 - s1 * s2 * s3⟩

/-- `Mat4.create()` from the worker: the identity matrix. -/
def Mat4.create : Mat4 :=
  ⟨1, 0, 0, 0, 0, 1, 0, 0, 0, 0, 1, 0, 0, 0, 0, 1⟩

/-- All-zero matrix: the content of a freshly allocated (zero-filled)
`ArrayBuffer` slot. -/
def Mat4.zero : Mat4 :=
  ⟨0, 0, 0, 0, 0, 0, 0, 0, 0, 0, 0, 0, 0, 0, 0, 0⟩

/-- `Mat4.compose(out, position, quaternion, scale)` from the worker. -/
def Mat4.compose (position : Vec3) (quaternion : Quat) (scale : Vec3) : Mat4 :=
  let x := quaternion.x
  let y := quaternion.y
  let z := quaternion.z
  let w := quaternion.w
  let x2 := x + x
  let y2 := y + y
  let z2 := z + z
  let xx := x * x2
  let xy := x * y2
  let xz := x * z2
  let yy := y * y2
  let yz := y * z2
  let zz := z * z2
  let wx := w * x2
  let wy := w * y2
  let wz := w * z2
  let sx := scale.x
  let sy := scale.y
  let sz := scale.z
  ⟨(1 - (yy + zz)) * sx, (xy + wz) * sx, (xz - wy) * sx, 0,
   (xy - wz) * sy, (1 - (xx + zz)) * sy, (yz + wx) * sy, 0,
   (xz + wy) * sz, (yz - wx) * sz, (1 - (xx + yy)) * sz, 0,
   position.x, position.y, position.z, 1⟩

/-- `Mat4.multiply(out, a, b)` from the worker. -/
def Mat4.multiply (a b : Mat4) : Mat4 :=
  ⟨b.m0 * a.m0 + b.m1 * a.m4 + b.m2 * a.m8 + b.m3 * a.m12,
   b.m0 * a.m1 + b.m1 * a.m5 + b.m2 * a.m9 + b.m3 * a.m13,
   b.m0 * a.m2 + b.m1 * a.m6 + b.m2 * a.m10 + b.m3 * a.m14,
   b.m0 * a.m3 + b.m1 * a.m7 + b.m2 * a.m11 + b.m3 * a.m15,
   b.m4 * a.m0 + b.m5 * a.m4 + b.m6 * a.m8 + b.m7 * a.m12,
   b.m4 * a.m1 + b.m5 * a.m5 + b.m6 * a.m9 + b.m7 * a.m13,
   b.m4 * a.m2 + b.m5 * a.m6 + b.m6 * a.m10 + b.m7 * a.m14,
   b.m4 * a.m3 + b.m5 * a.m7 + b.m6 * a.m11 + b.m7 * a.m15,
   b.m8 * a.m0 + b.m9 * a.m4 + b.m10 * a.m8 + b.m11 * a.m12,
   b.m8 * a.m1 + b.m9 * a.m5 + b.m10 * a.m9 + b.m11 * a.m13,
   b.m8 * a.m2 + b.m9 * a.m6 + b.m10 * a.m10 + b.m11 * a.m14,
   b.m8 * a.m3 + b.m9 * a.m7 + b.m10 * a.m11 + b.m11 * a.m15,
   b.m12 * a.m0 + b.m13 * a.m4 + b.m14 * a.m8 + b.m15 * a.m12,
   b.m12 * a.m1 + b.m13 * a.m5 + b.m14 * a.m9 + b.m15 * a.m13,
   b.m12 * a.m2 + b.m13 * a.m6 + b.m14 * a.m10 + b.m15 * a.m14,
   b.m12 * a.m3 + b.m13 * a.m7 + b.m14 * a.m11 + b.m15 * a.m15⟩

/-- `Mat4.makeTranslation(out, x, y, z)` from the worker. -/
def Mat4.makeTranslation (x y z : ℝ) : Mat4 :=
  ⟨1, 0, 0, 0, 0, 1, 0, 0, 0, 0, 1, 0, x, y, z, 1⟩

/-- One particle slot record, as pushed by the `init` handler. -/
structure Dipole where
  life : ℝ
  maxLife : ℝ
  maxScale : ℝ
  axis : Vec3
  instanceIndex : ℕ
  position : Vec3
  quaternion : Quat

/-- Fallback record used for out-of-range reads of the `dipoles` array. -/
def defaultDipole : Dipole :=
  { life := 0, maxLife := 0, maxScale := 0, axis := ⟨0, 0, 0⟩,
    instanceIndex := 0, position := ⟨0, 0, 0⟩, quaternion := ⟨0, 0, 0, 1⟩ }

/-- Particle record created for slot `i` by the `init` handler. -/
def initDipole (i : ℕ) : Dipole :=
  { life := 0, maxLife := 0, maxScale := 0, axis := ⟨0, 0, 0⟩,
    instanceIndex := i, position := ⟨0, 0, 0⟩, quaternion := ⟨0, 0, 0, 1⟩ }

/-- Simulation parameters (`params` in the worker, sent by the page). -/
structure Params where
  dipoleLifetime : ℝ
  speed : ℝ
  creationProbability : ℝ
  maxScaleBase : ℝ
  scaleVariance : ℝ
  spinSpeed : ℝ

/-- Partial parameter record carried by an `updateParams` message; `none`
fields are absent from the message object. -/
structure PartialParams where
  dipoleLifetime : Option ℝ
  speed : Option ℝ
  creationProbability : Option ℝ
  maxScaleBase : Option ℝ
  scaleVariance : Option ℝ
  spinSpeed : Option ℝ

/-- Spread-merge `{ ...params, ...data.params }` of the `updateParams`
handler. -/
def mergeParams (p : Params) (q : PartialParams) : Params :=
  { dipoleLifetime := q.dipoleLifetime.getD p.dipoleLifetime,
    speed := q.speed.getD p.speed,
    creationProbability := q.creationProbability.getD p.creationProbability,
    maxScaleBase := q.maxScaleBase.getD p.maxScaleBase,
    scaleVariance := q.scaleVariance.getD p.scaleVariance,
    spinSpeed := q.spinSpeed.getD p.spinSpeed }

/-- One transferable matrix `ArrayBuffer` together with its `Float32Array`
view: `gen` models the allocation identity of the underlying memory,
`bytes` its `byteLength`, and `data` the per-slot 4x4 matrix contents. -/
structure Buffer where
  gen : ℕ
  bytes : ℕ
  data : ℕ → Mat4

/-- Store matrix `m` at slot `slot` of the buffer's `Float32Array` view
(the source writes 16 consecutive floats at offset `slot * 16`). -/
def Buffer.write (buf : Buffer) (slot : ℕ) (m : Mat4) : Buffer :=
  { buf with data := fun k => if k = slot then m else buf.data k }

/-- `new ArrayBuffer(n * 16 * 4)` wrapped in a `Float32Array` view: a fresh
allocation (generation `g`) holding `n` zero matrices. -/
def freshBuffer (g n : ℕ) : Buffer :=
  { gen := g, bytes := n * 16 * 4, data := fun _ => Mat4.zero }

/-- The worker's global mutable state.  `posted` logs every buffer pair
transferred to the main thread by `postMessage`, in send order; `nextGen`
is the next unused allocation generation. -/
structure WorkerState where
  dipoles : List Dipole
  instanceIndices : List ℕ
  activeDipoleIndices : List ℕ
  maxDipoles : ℕ
  params : Params
  lobeOffset : ℝ
  redBuf : Buffer
  blueBuf : Buffer
  matrixOffsetRed : Mat4
  matrixOffsetBlue : Mat4
  lastTimestamp : ℝ
  simulationRunning : Bool
  nextGen : ℕ
  posted : List (Buffer × Buffer)

/-- Read `dipoles[i]`. -/
def WorkerState.dip (st : WorkerState) (i : ℕ) : Dipole :=
  st.dipoles.getD i defaultDipole

/-- The worker's state right after the script loads, before any message:
the arrays are empty, no simulation is running, and no buffers have been
allocated for real (generations 0 and 1 stand for the undefined pre-init
buffer bindings). -/
def initialWorkerState : WorkerState :=
  { dipoles := [], instanceIndices := [], activeDipoleIndices := [],
    maxDipoles := 0,
    params := { dipoleLifetime := 0, speed := 0, creationProbability := 0,
                maxScaleBase := 0, scaleVariance := 0, spinSpeed := 0 },
    lobeOffset := 0,
    redBuf := freshBuffer 0 0, blueBuf := freshBuffer 1 0,
    matrixOffsetRed := Mat4.create, matrixOffsetBlue := Mat4.create,
    lastTimestamp := 0, simulationRunning := false,
    nextGen := 2, posted := [] }

/-- Final lobe matrix written by `updateInstanceMatrix`: the base transform
composed from position, orientation and a uniform scale, multiplied by the
fixed per-lobe offset matrix. -/
def lobeMatrix (position : Vec3) (quaternion : Quat) (scale : ℝ)
    (offset : Mat4) : Mat4 :=
  Mat4.multiply (Mat4.compose position quaternion ⟨scale, scale, scale⟩) offset

/-- `updateInstanceMatrix(dipole, scale)` from the worker: writes the red
and blue lobe matrices for the dipole's slot into the current write
buffers. -/
def updateInstanceMatrixSt (d : Dipole) (scale : ℝ) (st : WorkerState) :
    WorkerState :=
  { st with
    redBuf := st.redBuf.write d.instanceIndex
      (lobeMatrix d.position d.quaternion scale st.matrixOffsetRed),
    blueBuf := st.blueBuf.write d.instanceIndex
      (lobeMatrix d.position d.quaternion scale st.matrixOffsetBlue) }

/-- `createDipole()` from the worker.  `rng` is the stream of
`Math.random()` results consumed by this call, in evaluation order. -/
def createDipole (rng : ℕ → ℝ) (st : WorkerState) : WorkerState :=
  match st.instanceIndices.getLast? with
  | none => st
  | some instanceIndex =>
    let d := st.dip instanceIndex
    let life := st.params.dipoleLifetime * (0.8 + rng 0 * 0.4)
    let d2 : Dipole :=
      { life := life, maxLife := life,
        maxScale := st.params.maxScaleBase *
          (1 + (rng 1 - 0.5) * 2 * st.params.scaleVariance),
        axis := Vec3.normalize d.axis ⟨rng 2 - 0.5, rng 3 - 0.5, rng 4 - 0.5⟩,
        instanceIndex := instanceIndex,
        position := ⟨(rng 5 - 0.5) * 4 * 2, (rng 6 - 0.5) * 4 * 2,
                     (rng 7 - 0.5) * 4 * 2⟩,
        quaternion := Quat.setFromEuler
          ⟨rng 8 * Real.pi * 2, rng 9 * Real.pi * 2, rng 10 * Real.pi * 2⟩ }
    updateInstanceMatrixSt d2 0.001
      { st with
        instanceIndices := st.instanceIndices.dropLast,
        activeDipoleIndices := st.activeDipoleIndices ++ [instanceIndex],
        dipoles := st.dipoles.set instanceIndex d2 }

/-- Scale envelope `Math.sin(progress * Math.PI) * dipole.maxScale` used by
the survive branch of the per-particle loop. -/
def envScale (progress maxScale : ℝ) : ℝ :=
  Real.sin (progress * Real.pi) * maxScale

/-- Body of one iteration of the per-active-particle loop in
`updateSimulation`, for the active entry `actualIndex`.  Returns the
updated state and whether the particle died this tick (the caller removes
it from the active list). -/
def stepActive (deltaTime : ℝ) (st : WorkerState) (actualIndex : ℕ) :
    WorkerState × Bool :=
  let dipole := st.dip actualIndex
  let life' := dipole.life - deltaTime * st.params.speed
  if life' ≤ 0 then
    let st1 := updateInstanceMatrixSt { dipole with life := life' } 0 st
    ({ st1 with
        instanceIndices := st1.instanceIndices ++ [dipole.instanceIndex],
        dipoles := st1.dipoles.set actualIndex { dipole with life := 0 } },
     true)
  else
    let progress := (dipole.maxLife - life') / dipole.maxLife
    let scale := envScale progress dipole.maxScale
    let rotationDelta :=
      Quat.setFromAxisAngle dipole.axis (deltaTime * st.params.spinSpeed)
    let d' := { dipole with
                life := life',
                quaternion := Quat.multiply rotationDelta dipole.quaternion }
    (updateInstanceMatrixSt d' scale { st with dipoles := st.dipoles.set actualIndex d' },
     false)

/-- The per-particle loop of `updateSimulation`, which walks
`activeDipoleIndices` from its last element down to its first, splicing
dead entries out.  The argument list is the active list reversed (the
source's visitation order); the returned list is the surviving active list
in original order, and the returned count is `updatedInstances`. -/
def runActives (deltaTime : ℝ) : WorkerState → List ℕ → WorkerState × List ℕ × ℕ
  | st, [] => (st, [], 0)
  | st, a :: rest =>
    let r1 := stepActive deltaTime st a
    let r2 := runActives deltaTime r1.1 rest
    (r2.1, r2.2.1 ++ (if r1.2 then [] else [a]), r2.2.2 + 1)

/-- Transfer the current buffer pair to the main thread (`postMessage` with
a transfer list) and immediately allocate a fresh pair of
`maxDipoles * 16 * 4`-byte buffers for subsequent writes.  This block
appears verbatim at both post sites of the worker. -/
def publish (st : WorkerState) : WorkerState :=
  { st with
    posted := st.posted ++ [(st.redBuf, st.blueBuf)],
    redBuf := freshBuffer st.nextGen st.maxDipoles,
    blueBuf := freshBuffer (st.nextGen + 1) st.maxDipoles,
    nextGen := st.nextGen + 2 }

/-- Elapsed seconds computed at the top of `updateSimulation`. -/
def dtOf (st : WorkerState) (timestamp : ℝ) : ℝ :=
  if 0 < st.lastTimestamp then (timestamp - st.lastTimestamp) / 1000
  else 0.016

/-- Spawn decision of `updateSimulation`: one `Math.random()` draw against
`creationProbability * deltaTime`, gated on a non-empty free list. -/
def spawnPhase (rng : ℕ → ℝ) (deltaTime : ℝ) (st : WorkerState) : WorkerState :=
  if rng 0 < st.params.creationProbability * deltaTime ∧
      st.instanceIndices ≠ [] then
    createDipole (fun n => rng (n + 1)) st
  else st

/-- `updateSimulation(timestamp)` from the worker: one tick.  Does nothing
unless the simulation is running; otherwise computes `deltaTime`, stores
the timestamp, runs the spawn decision, advances every active particle
(from the last active entry down to the first), and publishes the buffer
pair when at least one instance was updated. -/
def updateSimulation (rng : ℕ → ℝ) (timestamp : ℝ) (st : WorkerState) :
    WorkerState :=
  if st.simulationRunning then
    let deltaTime := dtOf st timestamp
    let st1 := spawnPhase rng deltaTime { st with lastTimestamp := timestamp }
    let r := runActives deltaTime st1 st1.activeDipoleIndices.reverse
    let st3 := { r.1 with activeDipoleIndices := r.2.1 }
    if 0 < r.2.2 then publish st3 else st3
  else st

/-- Control messages accepted by the worker's `onmessage` switch.  The
`start` message carries the `performance.now()` reading taken by its
handler; `unknown` stands for any unrecognized `data.type`. -/
inductive Message where
  | init (maxDipoles : ℕ) (params : Params) (lobeOffset : ℝ)
  | start (now : ℝ)
  | stop
  | updateParams (p : PartialParams)
  | returnBuffers (red blue : Buffer)
  | unknown

/-- The worker's `onmessage` dispatch. -/
def handleMessage : Message → WorkerState → WorkerState
  | .init n p off, st =>
    publish
      { st with
        maxDipoles := n, params := p, lobeOffset := off,
        dipoles := (List.range n).map initDipole,
        instanceIndices := List.range n,
        activeDipoleIndices := [],
        matrixOffsetRed := Mat4.makeTranslation 0 off 0,
        matrixOffsetBlue := Mat4.makeTranslation 0 (-off) 0,
        redBuf := freshBuffer st.nextGen n,
        blueBuf := freshBuffer (st.nextGen + 1) n,
        nextGen := st.nextGen + 2 }
  | .start now, st =>
    if st.simulationRunning then st
    else { st with simulationRunning := true, lastTimestamp := now }
  | .stop, st => { st with simulationRunning := false }
  | .updateParams q, st => { st with params := mergeParams st.params q }
  | .returnBuffers r b, st => { st with redBuf := r, blueBuf := b }
  | .unknown, st => st

/-! ### Derived forms of the loop body -/

/-- Life value after the `dipole.life -= deltaTime * params.speed`
decrement. -/
def agedLife (dt : ℝ) (p : Params) (d : Dipole) : ℝ := d.life - dt * p.speed

/-- Death test of the per-particle loop: the decremented life is `≤ 0`. -/
def diesNow (dt : ℝ) (p : Params) (d : Dipole) : Prop := agedLife dt p d ≤ 0

instance (dt : ℝ) (p : Params) (d : Dipole) : Decidable (diesNow dt p d) :=
  inferInstanceAs (Decidable (_ ≤ _))

/-- Particle record produced by the survive branch: decremented life and
spin-advanced orientation. -/
def advancedDipole (dt : ℝ) (p : Params) (d : Dipole) : Dipole :=
  { d with
    life := agedLife dt p d,
    quaternion :=
      Quat.multiply (Quat.setFromAxisAngle d.axis (dt * p.spinSpeed))
        d.quaternion }

/-- Scale written by the survive branch for a particle record. -/
def advancedScale (dt : ℝ) (p : Params) (d : Dipole) : ℝ :=
  envScale ((d.maxLife - agedLife dt p d) / d.maxLife) d.maxScale

theorem dip_set_self (l : List Dipole) (a : ℕ) (d : Dipole)
    (h : a < l.length) : (l.set a d).getD a defaultDipole = d := by
  simp [List.getD_eq_getElem?_getD, List.getElem?_set_eq_of_lt d h]

theorem dip_set_other (l : List Dipole) (a i : ℕ) (d : Dipole) (h : i ≠ a) :
    (l.set a d).getD i defaultDipole = l.getD i defaultDipole := by
  simp [List.getD_eq_getElem?_getD, List.getElem?_set_ne (Ne.symm h)]

theorem stepActive_dead {dt : ℝ} {st : WorkerState} {a : ℕ}
    (h : diesNow dt st.params (st.dip a)) :
    stepActive dt st a =
      ({ st with
          redBuf := st.redBuf.write (st.dip a).instanceIndex
            (lobeMatrix (st.dip a).position (st.dip a).quaternion 0
              st.matrixOffsetRed),
          blueBuf := st.blueBuf.write (st.dip a).instanceIndex
            (lobeMatrix (st.dip a).position (st.dip a).quaternion 0
              st.matrixOffsetBlue),
          instanceIndices := st.instanceIndices ++ [(st.dip a).instanceIndex],
          dipoles := st.dipoles.set a { st.dip a with life := 0 } }, true) := by
  have h' : (st.dip a).life - dt * st.params.speed ≤ 0 := h
  simp only [stepActive, updateInstanceMatrixSt, if_pos h']

theorem stepActive_alive {dt : ℝ} {st : WorkerState} {a : ℕ}
    (h : ¬ diesNow dt st.params (st.dip a)) :
    stepActive dt st a =
      ({ st with
          dipoles := st.dipoles.set a (advancedDipole dt st.params (st.dip a)),
          redBuf := st.redBuf.write (st.dip a).instanceIndex
            (lobeMatrix (st.dip a).position
              (advancedDipole dt st.params (st.dip a)).quaternion
              (advancedScale dt st.params (st.dip a)) st.matrixOffsetRed),
          blueBuf := st.blueBuf.write (st.dip a).instanceIndex
            (lobeMatrix (st.dip a).position
              (advancedDipole dt st.params (st.dip a)).quaternion
              (advancedScale dt st.params (st.dip a)) st.matrixOffsetBlue) },
       false) := by
  have h' : ¬ (st.dip a).life - dt * st.params.speed ≤ 0 := h
  simp only [stepActive, updateInstanceMatrixSt, if_neg h']
  rfl

/-! ### Pointwise effect of one loop iteration -/

theorem dip_set (l : List Dipole) (a i : ℕ) (d : Dipole) :
    (l.set a d).getD i defaultDipole =
      if a = i ∧ a < l.length then d else l.getD i defaultDipole := by
  simp only [List.getD_eq_getElem?_getD, List.getElem?_set]
  rcases eq_or_ne a i with rfl | h1
  · by_cases h2 : a < l.length
    · simp [h2]
    · simp [h2, List.getElem?_eq_none (Nat.le_of_not_lt h2)]
  · simp [h1]

theorem runActives_nil (dt : ℝ) (st : WorkerState) :
    runActives dt st [] = (st, [], 0) := rfl

theorem runActives_cons (dt : ℝ) (st : WorkerState) (a : ℕ) (rest : List ℕ) :
    runActives dt st (a :: rest) =
      ((runActives dt (stepActive dt st a).1 rest).1,
       (runActives dt (stepActive dt st a).1 rest).2.1 ++
         (if (stepActive dt st a).2 then [] else [a]),
       (runActives dt (stepActive dt st a).1 rest).2.2 + 1) := rfl

theorem stepActive_params (dt : ℝ) (st : WorkerState) (a : ℕ) :
    (stepActive dt st a).1.params = st.params := by
  by_cases hd : diesNow dt st.params (st.dip a)
  · rw [stepActive_dead hd]
  · rw [stepActive_alive hd]

theorem stepActive_idx (dt : ℝ) (st : WorkerState) (a b : ℕ) :
    ((stepActive dt st a).1.dip b).instanceIndex = (st.dip b).instanceIndex := by
  by_cases hd : diesNow dt st.params (st.dip a) <;>
    [rw [stepActive_dead hd]; rw [stepActive_alive hd]] <;>
  · simp only [WorkerState.dip, dip_set]
    split
    · rename_i h
      rcases h with ⟨rfl, -⟩
      simp [advancedDipole]
    · rfl

theorem stepActive_dip_other (dt : ℝ) (st : WorkerState) (a b : ℕ)
    (hba : b ≠ a) : (stepActive dt st a).1.dip b = st.dip b := by
  by_cases hd : diesNow dt st.params (st.dip a) <;>
    [rw [stepActive_dead hd]; rw [stepActive_alive hd]] <;>
  · simp only [WorkerState.dip, dip_set]
    rw [if_neg]
    rintro ⟨rfl, -⟩
    exact hba rfl

theorem stepActive_buf_other (dt : ℝ) (st : WorkerState) (a i : ℕ)
    (hi : i ≠ (st.dip a).instanceIndex) :
    (stepActive dt st a).1.redBuf.data i = st.redBuf.data i ∧
    (stepActive dt st a).1.blueBuf.data i = st.blueBuf.data i := by
  by_cases hd : diesNow dt st.params (st.dip a) <;>
    [rw [stepActive_dead hd]; rw [stepActive_alive hd]] <;>
    exact ⟨by simp [Buffer.write, hi], by simp [Buffer.write, hi]⟩

theorem stepActive_free_dead {dt : ℝ} {st : WorkerState} {a : ℕ}
    (hd : diesNow dt st.params (st.dip a)) :
    (stepActive dt st a).1.instanceIndices =
      st.instanceIndices ++ [(st.dip a).instanceIndex] := by
  rw [stepActive_dead hd]

theorem stepActive_free_alive {dt : ℝ} {st : WorkerState} {a : ℕ}
    (hd : ¬ diesNow dt st.params (st.dip a)) :
    (stepActive dt st a).1.instanceIndices = st.instanceIndices := by
  rw [stepActive_alive hd]

theorem stepActive_died (dt : ℝ) (st : WorkerState) (a : ℕ) :
    (stepActive dt st a).2 = decide (diesNow dt st.params (st.dip a)) := by
  by_cases hd : diesNow dt st.params (st.dip a) <;>
    [rw [stepActive_dead hd]; rw [stepActive_alive hd]] <;> simp [hd]

/-! ### Frame: fields the per-particle loop never changes -/

/-- Relation between a pre-loop state and a mid/post-loop state listing all
the components the per-particle loop leaves alone. -/
structure SameFrame (st st' : WorkerState) : Prop where
  maxDipoles_eq : st'.maxDipoles = st.maxDipoles
  params_eq : st'.params = st.params
  active_eq : st'.activeDipoleIndices = st.activeDipoleIndices
  lastTimestamp_eq : st'.lastTimestamp = st.lastTimestamp
  running_eq : st'.simulationRunning = st.simulationRunning
  nextGen_eq : st'.nextGen = st.nextGen
  posted_eq : st'.posted = st.posted
  offsetRed_eq : st'.matrixOffsetRed = st.matrixOffsetRed
  offsetBlue_eq : st'.matrixOffsetBlue = st.matrixOffsetBlue
  lobeOffset_eq : st'.lobeOffset = st.lobeOffset
  dipoles_length_eq : st'.dipoles.length = st.dipoles.length
  redGen_eq : st'.redBuf.gen = st.redBuf.gen
  redBytes_eq : st'.redBuf.bytes = st.redBuf.bytes
  blueGen_eq : st'.blueBuf.gen = st.blueBuf.gen
  blueBytes_eq : st'.blueBuf.bytes = st.blueBuf.bytes

theorem sameFrame_refl (st : WorkerState) : SameFrame st st := by
  constructor <;> rfl

theorem sameFrame_trans {s1 s2 s3 : WorkerState}
    (h1 : SameFrame s1 s2) (h2 : SameFrame s2 s3) : SameFrame s1 s3 where
  maxDipoles_eq := h2.maxDipoles_eq.trans h1.maxDipoles_eq
  params_eq := h2.params_eq.trans h1.params_eq
  active_eq := h2.active_eq.trans h1.active_eq
  lastTimestamp_eq := h2.lastTimestamp_eq.trans h1.lastTimestamp_eq
  running_eq := h2.running_eq.trans h1.running_eq
  nextGen_eq := h2.nextGen_eq.trans h1.nextGen_eq
  posted_eq := h2.posted_eq.trans h1.posted_eq
  offsetRed_eq := h2.offsetRed_eq.trans h1.offsetRed_eq
  offsetBlue_eq := h2.offsetBlue_eq.trans h1.offsetBlue_eq
  lobeOffset_eq := h2.lobeOffset_eq.trans h1.lobeOffset_eq
  dipoles_length_eq := h2.dipoles_length_eq.trans h1.dipoles_length_eq
  redGen_eq := h2.redGen_eq.trans h1.redGen_eq
  redBytes_eq := h2.redBytes_eq.trans h1.redBytes_eq
  blueGen_eq := h2.blueGen_eq.trans h1.blueGen_eq
  blueBytes_eq := h2.blueBytes_eq.trans h1.blueBytes_eq

theorem stepActive_sameFrame (dt : ℝ) (st : WorkerState) (a : ℕ) :
    SameFrame st (stepActive dt st a).1 := by
  by_cases hd : diesNow dt st.params (st.dip a) <;>
    [rw [stepActive_dead hd]; rw [stepActive_alive hd]] <;>
    exact ⟨rfl, rfl, rfl, rfl, rfl, rfl, rfl, rfl, rfl, rfl,
           by simp, rfl, rfl, rfl, rfl⟩

theorem runActives_sameFrame (dt : ℝ) (st : WorkerState) (as : List ℕ) :
    SameFrame st (runActives dt st as).1 := by
  induction as generalizing st with
  | nil => exact sameFrame_refl st
  | cons a rest ih =>
    rw [runActives_cons]
    exact sameFrame_trans (stepActive_sameFrame dt st a) (ih _)

theorem runActives_updated (dt : ℝ) (st : WorkerState) (as : List ℕ) :
    (runActives dt st as).2.2 = as.length := by
  induction as generalizing st with
  | nil => rfl
  | cons a rest ih => rw [runActives_cons]; simp [ih]

theorem runActives_surv_le (dt : ℝ) (st : WorkerState) (as : List ℕ) :
    (runActives dt st as).2.1.length ≤ as.length := by
  induction as generalizing st with
  | nil => simp [runActives_nil]
  | cons a rest ih =>
    rw [runActives_cons]
    simp only [List.length_append, List.length_cons]
    have := ih (stepActive dt st a).1
    cases hb : (stepActive dt st a).2 <;> simp <;> omega

/-! ### Global effect of the per-particle loop -/

theorem runActives_untouched (dt : ℝ) (st : WorkerState) (as : List ℕ) (i : ℕ)
    (hidx : ∀ a ∈ as, (st.dip a).instanceIndex = a)
    (hi : i ∉ as) :
    (runActives dt st as).1.dip i = st.dip i ∧
    (runActives dt st as).1.redBuf.data i = st.redBuf.data i ∧
    (runActives dt st as).1.blueBuf.data i = st.blueBuf.data i := by
  induction as generalizing st with
  | nil => exact ⟨rfl, rfl, rfl⟩
  | cons a rest ih =>
    simp only [runActives_cons]
    have hia : i ≠ a := fun h => hi (h ▸ List.mem_cons_self a rest)
    have hidx1 : ∀ b ∈ rest, ((stepActive dt st a).1.dip b).instanceIndex = b :=
      fun b hb =>
        (stepActive_idx dt st a b).trans (hidx b (List.mem_cons_of_mem a hb))
    have hrest : i ∉ rest := fun h => hi (List.mem_cons_of_mem a h)
    have hia' : i ≠ (st.dip a).instanceIndex := by
      rw [hidx a (List.mem_cons_self a rest)]; exact hia
    obtain ⟨e1, e2, e3⟩ := ih (stepActive dt st a).1 hidx1 hrest
    obtain ⟨f2, f3⟩ := stepActive_buf_other dt st a i hia'
    exact ⟨e1.trans (stepActive_dip_other dt st a i hia), e2.trans f2,
           e3.trans f3⟩

theorem runActives_free (dt : ℝ) (st : WorkerState) (as : List ℕ)
    (hidx : ∀ a ∈ as, (st.dip a).instanceIndex = a)
    (hnd : as.Nodup) :
    (runActives dt st as).1.instanceIndices =
      st.instanceIndices ++
        as.filter (fun a => decide (diesNow dt st.params (st.dip a))) := by
  induction as generalizing st with
  | nil => simp [runActives_nil]
  | cons a rest ih =>
    simp only [runActives_cons]
    obtain ⟨hna, hndr⟩ := List.nodup_cons.mp hnd
    have hidx1 : ∀ b ∈ rest, ((stepActive dt st a).1.dip b).instanceIndex = b :=
      fun b hb =>
        (stepActive_idx dt st a b).trans (hidx b (List.mem_cons_of_mem a hb))
    have hdipeq : ∀ b ∈ rest, (stepActive dt st a).1.dip b = st.dip b :=
      fun b hb => stepActive_dip_other dt st a b (fun h => hna (h ▸ hb))
    have hpar : (stepActive dt st a).1.params = st.params :=
      stepActive_params dt st a
    have hfil :
        rest.filter (fun b => decide (diesNow dt (stepActive dt st a).1.params
            ((stepActive dt st a).1.dip b))) =
        rest.filter (fun b => decide (diesNow dt st.params (st.dip b))) := by
      apply List.filter_congr
      intro b hb
      rw [hpar, hdipeq b hb]
    rw [ih (stepActive dt st a).1 hidx1 hndr, hfil]
    by_cases hd : diesNow dt st.params (st.dip a)
    · rw [stepActive_free_dead hd, hidx a (List.mem_cons_self a rest),
          List.filter_cons_of_pos (by simpa using hd)]
      simp
    · rw [stepActive_free_alive hd,
          List.filter_cons_of_neg (by simpa using hd)]

theorem runActives_surv (dt : ℝ) (st : WorkerState) (as : List ℕ)
    (hnd : as.Nodup) :
    (runActives dt st as).2.1 =
      as.reverse.filter
        (fun a => decide (¬ diesNow dt st.params (st.dip a))) := by
  induction as generalizing st with
  | nil => simp [runActives_nil]
  | cons a rest ih =>
    simp only [runActives_cons]
    obtain ⟨hna, hndr⟩ := List.nodup_cons.mp hnd
    have hdipeq : ∀ b ∈ rest, (stepActive dt st a).1.dip b = st.dip b :=
      fun b hb => stepActive_dip_other dt st a b (fun h => hna (h ▸ hb))
    have hpar : (stepActive dt st a).1.params = st.params :=
      stepActive_params dt st a
    have hfil :
        rest.reverse.filter (fun b =>
          decide (¬ diesNow dt (stepActive dt st a).1.params
            ((stepActive dt st a).1.dip b))) =
        rest.reverse.filter (fun b =>
          decide (¬ diesNow dt st.params (st.dip b))) := by
      apply List.filter_congr
      intro b hb
      rw [hpar, hdipeq b (List.mem_reverse.mp hb)]
    rw [ih (stepActive dt st a).1 hndr, hfil, stepActive_died]
    by_cases hd : diesNow dt st.params (st.dip a) <;>
      simp [hd, List.filter_append]

theorem runActives_final (dt : ℝ) (st : WorkerState) (as : List ℕ)
    (hidx : ∀ a ∈ as, (st.dip a).instanceIndex = a)
    (hlen : ∀ a ∈ as, a < st.dipoles.length)
    (hnd : as.Nodup) :
    ∀ a ∈ as,
      (diesNow dt st.params (st.dip a) →
        (runActives dt st as).1.dip a = { st.dip a with life := 0 } ∧
        (runActives dt st as).1.redBuf.data a =
          lobeMatrix (st.dip a).position (st.dip a).quaternion 0
            st.matrixOffsetRed ∧
        (runActives dt st as).1.blueBuf.data a =
          lobeMatrix (st.dip a).position (st.dip a).quaternion 0
            st.matrixOffsetBlue) ∧
      (¬ diesNow dt st.params (st.dip a) →
        (runActives dt st as).1.dip a = advancedDipole dt st.params (st.dip a) ∧
        (runActives dt st as).1.redBuf.data a =
          lobeMatrix (st.dip a).position
            (advancedDipole dt st.params (st.dip a)).quaternion
            (advancedScale dt st.params (st.dip a)) st.matrixOffsetRed ∧
        (runActives dt st as).1.blueBuf.data a =
          lobeMatrix (st.dip a).position
            (advancedDipole dt st.params (st.dip a)).quaternion
            (advancedScale dt st.params (st.dip a)) st.matrixOffsetBlue) := by
  induction as generalizing st with
  | nil => intro a ha; exact absurd ha (List.not_mem_nil a)
  | cons a0 rest ih =>
    obtain ⟨hna, hndr⟩ := List.nodup_cons.mp hnd
    have hidx1 : ∀ b ∈ rest, ((stepActive dt st a0).1.dip b).instanceIndex = b :=
      fun b hb =>
        (stepActive_idx dt st a0 b).trans (hidx b (List.mem_cons_of_mem a0 hb))
    have hlen1 : ∀ b ∈ rest, b < (stepActive dt st a0).1.dipoles.length :=
      fun b hb => by
        rw [(stepActive_sameFrame dt st a0).dipoles_length_eq]
        exact hlen b (List.mem_cons_of_mem a0 hb)
    have hdipeq : ∀ b ∈ rest, (stepActive dt st a0).1.dip b = st.dip b :=
      fun b hb => stepActive_dip_other dt st a0 b (fun h => hna (h ▸ hb))
    have hpar : (stepActive dt st a0).1.params = st.params :=
      stepActive_params dt st a0
    have hoffR : (stepActive dt st a0).1.matrixOffsetRed = st.matrixOffsetRed :=
      (stepActive_sameFrame dt st a0).offsetRed_eq
    have hoffB : (stepActive dt st a0).1.matrixOffsetBlue = st.matrixOffsetBlue :=
      (stepActive_sameFrame dt st a0).offsetBlue_eq
    intro a ha
    rcases List.mem_cons.mp ha with rfl | hmem
    · -- the head element: processed first, then untouched by the rest
      have hidxa : (st.dip a).instanceIndex = a :=
        hidx a (List.mem_cons_self a rest)
      have hlena : a < st.dipoles.length := hlen a (List.mem_cons_self a rest)
      obtain ⟨u1, u2, u3⟩ :=
        runActives_untouched dt (stepActive dt st a).1 rest a hidx1 hna
      constructor
      · intro hd
        simp only [runActives_cons]
        rw [u1, u2, u3, stepActive_dead hd]
        refine ⟨?_, ?_, ?_⟩
        · simp only [WorkerState.dip, dip_set]
          simp [hlena]
        · simp [Buffer.write, hidxa]
        · simp [Buffer.write, hidxa]
      · intro hd
        simp only [runActives_cons]
        rw [u1, u2, u3, stepActive_alive hd]
        refine ⟨?_, ?_, ?_⟩
        · simp only [WorkerState.dip, dip_set]
          simp [hlena]
        · simp [Buffer.write, hidxa]
        · simp [Buffer.write, hidxa]
    · -- an element deeper in the list: inductive hypothesis on the tail
      have := ih (stepActive dt st a0).1 hidx1 hlen1 hndr a hmem
      rw [hdipeq a hmem, hpar, hoffR, hoffB] at this
      simp only [runActives_cons]
      exact this

theorem runActives_idx (dt : ℝ) (st : WorkerState) (as : List ℕ) (b : ℕ) :
    ((runActives dt st as).1.dip b).instanceIndex = (st.dip b).instanceIndex := by
  induction as generalizing st with
  | nil => rfl
  | cons a rest ih =>
    simp only [runActives_cons]
    exact (ih (stepActive dt st a).1).trans (stepActive_idx dt st a b)

/-! ### Effect of the spawn phase -/

/-- The particle record that `createDipole` builds for the popped slot `j`
(the field assignments between the pop and the initial matrix write). -/
def spawnDipole (rng : ℕ → ℝ) (st : WorkerState) (j : ℕ) : Dipole :=
  { life := st.params.dipoleLifetime * (0.8 + rng 0 * 0.4),
    maxLife := st.params.dipoleLifetime * (0.8 + rng 0 * 0.4),
    maxScale := st.params.maxScaleBase *
      (1 + (rng 1 - 0.5) * 2 * st.params.scaleVariance),
    axis := Vec3.normalize (st.dip j).axis ⟨rng 2 - 0.5, rng 3 - 0.5, rng 4 - 0.5⟩,
    instanceIndex := j,
    position := ⟨(rng 5 - 0.5) * 4 * 2, (rng 6 - 0.5) * 4 * 2,
                 (rng 7 - 0.5) * 4 * 2⟩,
    quaternion := Quat.setFromEuler
      ⟨rng 8 * Real.pi * 2, rng 9 * Real.pi * 2, rng 10 * Real.pi * 2⟩ }

theorem createDipole_none {rng : ℕ → ℝ} {st : WorkerState}
    (hj : st.instanceIndices.getLast? = none) : createDipole rng st = st := by
  simp only [createDipole, hj]

theorem createDipole_some {rng : ℕ → ℝ} {st : WorkerState} {j : ℕ}
    (hj : st.instanceIndices.getLast? = some j) :
    createDipole rng st =
      { st with
        instanceIndices := st.instanceIndices.dropLast,
        activeDipoleIndices := st.activeDipoleIndices ++ [j],
        dipoles := st.dipoles.set j (spawnDipole rng st j),
        redBuf := st.redBuf.write j
          (lobeMatrix (spawnDipole rng st j).position
            (spawnDipole rng st j).quaternion 0.001 st.matrixOffsetRed),
        blueBuf := st.blueBuf.write j
          (lobeMatrix (spawnDipole rng st j).position
            (spawnDipole rng st j).quaternion 0.001 st.matrixOffsetBlue) } := by
  simp only [createDipole, hj, updateInstanceMatrixSt, spawnDipole]

theorem spawnPhase_of_pos {rng : ℕ → ℝ} {dt : ℝ} {st : WorkerState}
    (h : rng 0 < st.params.creationProbability * dt ∧ st.instanceIndices ≠ []) :
    spawnPhase rng dt st = createDipole (fun n => rng (n + 1)) st := by
  simp only [spawnPhase, if_pos h]

theorem spawnPhase_of_neg {rng : ℕ → ℝ} {dt : ℝ} {st : WorkerState}
    (h : ¬ (rng 0 < st.params.creationProbability * dt ∧
        st.instanceIndices ≠ [])) :
    spawnPhase rng dt st = st := by
  simp only [spawnPhase, if_neg h]

theorem spawnPhase_cases (rng : ℕ → ℝ) (dt : ℝ) (st : WorkerState) :
    spawnPhase rng dt st = st ∨
    ∃ j, st.instanceIndices.getLast? = some j ∧
      spawnPhase rng dt st = createDipole (fun n => rng (n + 1)) st := by
  by_cases h : rng 0 < st.params.creationProbability * dt ∧
      st.instanceIndices ≠ []
  · cases hj : st.instanceIndices.getLast? with
    | none => exact Or.inl ((spawnPhase_of_pos h).trans (createDipole_none hj))
    | some j => exact Or.inr ⟨j, rfl, spawnPhase_of_pos h⟩
  · exact Or.inl (spawnPhase_of_neg h)

theorem createDipole_frame (rng : ℕ → ℝ) (st : WorkerState) :
    (createDipole rng st).maxDipoles = st.maxDipoles ∧
    (createDipole rng st).params = st.params ∧
    (createDipole rng st).posted = st.posted ∧
    (createDipole rng st).nextGen = st.nextGen ∧
    (createDipole rng st).lastTimestamp = st.lastTimestamp ∧
    (createDipole rng st).simulationRunning = st.simulationRunning ∧
    (createDipole rng st).matrixOffsetRed = st.matrixOffsetRed ∧
    (createDipole rng st).matrixOffsetBlue = st.matrixOffsetBlue ∧
    (createDipole rng st).dipoles.length = st.dipoles.length ∧
    (createDipole rng st).redBuf.gen = st.redBuf.gen ∧
    (createDipole rng st).redBuf.bytes = st.redBuf.bytes ∧
    (createDipole rng st).blueBuf.gen = st.blueBuf.gen ∧
    (createDipole rng st).blueBuf.bytes = st.blueBuf.bytes := by
  rcases hj : st.instanceIndices.getLast? with - | j
  · rw [createDipole_none hj]
    exact ⟨rfl, rfl, rfl, rfl, rfl, rfl, rfl, rfl, rfl, rfl, rfl, rfl, rfl⟩
  · rw [createDipole_some hj]
    exact ⟨rfl, rfl, rfl, rfl, rfl, rfl, rfl, rfl, by simp, rfl, rfl, rfl, rfl⟩

theorem spawnPhase_frame (rng : ℕ → ℝ) (dt : ℝ) (st : WorkerState) :
    (spawnPhase rng dt st).maxDipoles = st.maxDipoles ∧
    (spawnPhase rng dt st).params = st.params ∧
    (spawnPhase rng dt st).posted = st.posted ∧
    (spawnPhase rng dt st).nextGen = st.nextGen ∧
    (spawnPhase rng dt st).lastTimestamp = st.lastTimestamp ∧
    (spawnPhase rng dt st).simulationRunning = st.simulationRunning ∧
    (spawnPhase rng dt st).matrixOffsetRed = st.matrixOffsetRed ∧
    (spawnPhase rng dt st).matrixOffsetBlue = st.matrixOffsetBlue ∧
    (spawnPhase rng dt st).dipoles.length = st.dipoles.length ∧
    (spawnPhase rng dt st).redBuf.gen = st.redBuf.gen ∧
    (spawnPhase rng dt st).redBuf.bytes = st.redBuf.bytes ∧
    (spawnPhase rng dt st).blueBuf.gen = st.blueBuf.gen ∧
    (spawnPhase rng dt st).blueBuf.bytes = st.blueBuf.bytes := by
  unfold spawnPhase
  split
  · exact createDipole_frame _ st
  · exact ⟨rfl, rfl, rfl, rfl, rfl, rfl, rfl, rfl, rfl, rfl, rfl, rfl, rfl⟩

/-! ### Tick pipeline -/

/-- State after the spawn decision of a tick (timestamp stored, possibly
one particle created). -/
def tickSpawn (rng : ℕ → ℝ) (ts : ℝ) (st : WorkerState) : WorkerState :=
  spawnPhase rng (dtOf st ts) { st with lastTimestamp := ts }

/-- Result triple of the per-particle loop of a tick: post-loop state,
surviving active list, and the `updatedInstances` counter. -/
def tickLoop (rng : ℕ → ℝ) (ts : ℝ) (st : WorkerState) :
    WorkerState × List ℕ × ℕ :=
  runActives (dtOf st ts) (tickSpawn rng ts st)
    (tickSpawn rng ts st).activeDipoleIndices.reverse

/-- Tick state right before the publish decision. -/
def tickPre (rng : ℕ → ℝ) (ts : ℝ) (st : WorkerState) : WorkerState :=
  { (tickLoop rng ts st).1 with
    activeDipoleIndices := (tickLoop rng ts st).2.1 }

theorem updateSimulation_run {rng : ℕ → ℝ} {ts : ℝ} {st : WorkerState}
    (hrun : st.simulationRunning = true) :
    updateSimulation rng ts st =
      if 0 < (tickLoop rng ts st).2.2 then publish (tickPre rng ts st)
      else tickPre rng ts st := by
  simp only [updateSimulation, hrun, if_true, tickLoop, tickSpawn, tickPre]

theorem updateSimulation_stopped {rng : ℕ → ℝ} {ts : ℝ} {st : WorkerState}
    (hrun : st.simulationRunning = false) :
    updateSimulation rng ts st = st := by
  simp only [updateSimulation, hrun, Bool.false_eq_true, if_false]

theorem tickLoop_updated (rng : ℕ → ℝ) (ts : ℝ) (st : WorkerState) :
    (tickLoop rng ts st).2.2 =
      (tickSpawn rng ts st).activeDipoleIndices.length := by
  rw [tickLoop, runActives_updated, List.length_reverse]

/-! ### Pool invariant -/

/-- Partition invariant of the particle pool: one dipole record per slot,
records remember their own slot index, every slot index below capacity is
in exactly one of the free list and the active list (and indices at or
above capacity are in neither), and remaining life is positive exactly for
active slots. -/
structure PoolInv (st : WorkerState) : Prop where
  len_eq : st.dipoles.length = st.maxDipoles
  idx_eq : ∀ i < st.maxDipoles, (st.dip i).instanceIndex = i
  partition : ∀ i, st.instanceIndices.count i +
      st.activeDipoleIndices.count i =
      if i < st.maxDipoles then 1 else 0
  life_iff : ∀ i < st.maxDipoles,
      (0 < (st.dip i).life ↔ i ∈ st.activeDipoleIndices)

theorem count_range_eq (n i : ℕ) :
    (List.range n).count i = if i < n then 1 else 0 := by
  rcases Nat.lt_or_ge i n with h | h
  · rw [if_pos h]
    exact List.count_eq_one_of_mem (List.nodup_range n) (List.mem_range.mpr h)
  · rw [if_neg (Nat.not_lt.mpr h)]
    exact List.count_eq_zero.mpr
      (fun hm => Nat.not_lt.mpr h (List.mem_range.mp hm))

theorem count_filter_false {p : ℕ → Bool} {l : List ℕ} {a : ℕ}
    (h : p a = false) : (l.filter p).count a = 0 :=
  List.count_eq_zero.mpr (fun hm => by simp [List.mem_filter, h] at hm)

theorem PoolInv.active_count_le_one {st : WorkerState} (h : PoolInv st)
    (i : ℕ) : st.activeDipoleIndices.count i ≤ 1 := by
  have hp := h.partition i
  by_cases hi : i < st.maxDipoles <;> simp [hi] at hp <;> omega

theorem PoolInv.active_nodup {st : WorkerState} (h : PoolInv st) :
    st.activeDipoleIndices.Nodup :=
  List.nodup_iff_count_le_one.mpr h.active_count_le_one

theorem PoolInv.active_lt {st : WorkerState} (h : PoolInv st) :
    ∀ a ∈ st.activeDipoleIndices, a < st.maxDipoles := by
  intro a ha
  by_contra hlt
  have hp := h.partition a
  rw [if_neg hlt] at hp
  have : 1 ≤ st.activeDipoleIndices.count a := List.one_le_count_iff.mpr ha
  omega

theorem PoolInv.active_idx {st : WorkerState} (h : PoolInv st) :
    ∀ a ∈ st.activeDipoleIndices, (st.dip a).instanceIndex = a :=
  fun a ha => h.idx_eq a (h.active_lt a ha)

theorem PoolInv.free_lt {st : WorkerState} (h : PoolInv st) :
    ∀ a ∈ st.instanceIndices, a < st.maxDipoles := by
  intro a ha
  by_contra hlt
  have hp := h.partition a
  rw [if_neg hlt] at hp
  have : 1 ≤ st.instanceIndices.count a := List.one_le_count_iff.mpr ha
  omega

theorem PoolInv.free_count_one {st : WorkerState} (h : PoolInv st) :
    ∀ a ∈ st.instanceIndices, st.instanceIndices.count a = 1 ∧
      st.activeDipoleIndices.count a = 0 := by
  intro a ha
  have hp := h.partition a
  rw [if_pos (h.free_lt a ha)] at hp
  have : 1 ≤ st.instanceIndices.count a := List.one_le_count_iff.mpr ha
  omega

theorem PoolInv.active_count_one {st : WorkerState} (h : PoolInv st) :
    ∀ a ∈ st.activeDipoleIndices, st.activeDipoleIndices.count a = 1 ∧
      st.instanceIndices.count a = 0 := by
  intro a ha
  have hp := h.partition a
  rw [if_pos (h.active_lt a ha)] at hp
  have : 1 ≤ st.activeDipoleIndices.count a := List.one_le_count_iff.mpr ha
  omega

theorem getD_map_range (n i : ℕ) (f : ℕ → Dipole) :
    ((List.range n).map f).getD i defaultDipole =
      if i < n then f i else defaultDipole := by
  rcases Nat.lt_or_ge i n with h | h
  · rw [List.getD_eq_getElem?_getD, List.getElem?_map, List.getElem?_range h,
        if_pos h]
    rfl
  · rw [List.getD_eq_getElem?_getD, List.getElem?_map, if_neg (Nat.not_lt.mpr h),
        List.getElem?_eq_none (by simpa using h)]
    rfl

theorem poolInv_init (n : ℕ) (p : Params) (off : ℝ) (st : WorkerState) :
    PoolInv (handleMessage (.init n p off) st) := by
  constructor
  · simp [handleMessage, publish]
  · intro i hi
    simp only [handleMessage, publish] at hi ⊢
    simp only [WorkerState.dip] at hi ⊢
    simp [getD_map_range, hi, initDipole] at hi ⊢
  · intro i
    simp only [handleMessage, publish]
    simp [count_range_eq]
  · intro i hi
    simp only [handleMessage, publish] at hi ⊢
    simp only [WorkerState.dip] at hi ⊢
    simp [getD_map_range, hi, initDipole]

theorem poolInv_createDipole (rng : ℕ → ℝ) (st : WorkerState)
    (hInv : PoolInv st) (hlife : 0 < st.params.dipoleLifetime)
    (hrng0 : 0 ≤ rng 0) : PoolInv (createDipole rng st) := by
  cases hj : st.instanceIndices.getLast? with
  | none => rw [createDipole_none hj]; exact hInv
  | some j =>
    have hjmem : j ∈ st.instanceIndices := List.mem_of_mem_getLast? hj
    have hsplit : st.instanceIndices.dropLast ++ [j] = st.instanceIndices :=
      List.dropLast_append_getLast? j hj
    have hjlt : j < st.maxDipoles := hInv.free_lt j hjmem
    have hjlen : j < st.dipoles.length := by rw [hInv.len_eq]; exact hjlt
    obtain ⟨hc1, hc2⟩ := hInv.free_count_one j hjmem
    have hjnact : j ∉ st.activeDipoleIndices := by
      intro hmem
      have := List.one_le_count_iff.mpr hmem
      omega
    have hlifepos : 0 < (spawnDipole rng st j).life := by
      have h04 : (0:ℝ) ≤ rng 0 * 0.4 := mul_nonneg hrng0 (by norm_num)
      have hpos : (0:ℝ) < 0.8 + rng 0 * 0.4 := by linarith
      exact mul_pos hlife hpos
    rw [createDipole_some hj]
    constructor
    · simpa using hInv.len_eq
    · intro i hi
      simp only [WorkerState.dip, dip_set]
      split
      · rename_i h
        rcases h with ⟨rfl, -⟩
        rfl
      · exact hInv.idx_eq i hi
    · intro i
      have hcount : st.instanceIndices.dropLast.count i + [j].count i =
          st.instanceIndices.count i := by
        conv_rhs => rw [← hsplit]
        rw [List.count_append]
      have hp := hInv.partition i
      simp only [List.count_append]
      by_cases hi : i < st.maxDipoles <;> simp only [hi, if_true, if_false] at hp ⊢ <;>
        omega
    · intro i hi
      simp only [WorkerState.dip, dip_set]
      rcases eq_or_ne j i with rfl | hij
      · rw [if_pos ⟨rfl, hjlen⟩]
        simp [List.mem_append, hlifepos]
      · rw [if_neg (fun h => hij h.1)]
        have hold := hInv.life_iff i hi
        simp only [List.mem_append, List.mem_singleton]
        constructor
        · intro h0
          exact Or.inl ((hold.mp h0))
        · intro hm
          rcases hm with hm | hm
          · exact hold.mpr hm
          · exact absurd hm.symm hij

theorem tickPre_dip (rng : ℕ → ℝ) (ts : ℝ) (st : WorkerState) (i : ℕ) :
    (tickPre rng ts st).dip i = (tickLoop rng ts st).1.dip i := rfl

theorem tickPre_free (rng : ℕ → ℝ) (ts : ℝ) (st : WorkerState) :
    (tickPre rng ts st).instanceIndices =
      (tickLoop rng ts st).1.instanceIndices := rfl

theorem tickPre_active (rng : ℕ → ℝ) (ts : ℝ) (st : WorkerState) :
    (tickPre rng ts st).activeDipoleIndices = (tickLoop rng ts st).2.1 := rfl

theorem tickPre_max (rng : ℕ → ℝ) (ts : ℝ) (st : WorkerState) :
    (tickPre rng ts st).maxDipoles = (tickLoop rng ts st).1.maxDipoles := rfl

theorem tickPre_dipoles (rng : ℕ → ℝ) (ts : ℝ) (st : WorkerState) :
    (tickPre rng ts st).dipoles = (tickLoop rng ts st).1.dipoles := rfl

theorem tickLoop_def (rng : ℕ → ℝ) (ts : ℝ) (st : WorkerState) :
    tickLoop rng ts st =
      runActives (dtOf st ts) (tickSpawn rng ts st)
        (tickSpawn rng ts st).activeDipoleIndices.reverse := rfl

theorem poolInv_tickPre (rng : ℕ → ℝ) (ts : ℝ) (st : WorkerState)
    (hInv1 : PoolInv (tickSpawn rng ts st)) :
    PoolInv (tickPre rng ts st) := by
  have hnd : (tickSpawn rng ts st).activeDipoleIndices.reverse.Nodup :=
    List.nodup_reverse.mpr hInv1.active_nodup
  have hidx : ∀ a ∈ (tickSpawn rng ts st).activeDipoleIndices.reverse,
      ((tickSpawn rng ts st).dip a).instanceIndex = a :=
    fun a ha => hInv1.active_idx a (List.mem_reverse.mp ha)
  have hlen : ∀ a ∈ (tickSpawn rng ts st).activeDipoleIndices.reverse,
      a < (tickSpawn rng ts st).dipoles.length := fun a ha => by
    rw [hInv1.len_eq]; exact hInv1.active_lt a (List.mem_reverse.mp ha)
  have hfree := runActives_free (dtOf st ts) (tickSpawn rng ts st)
    (tickSpawn rng ts st).activeDipoleIndices.reverse hidx hnd
  have hsurv := runActives_surv (dtOf st ts) (tickSpawn rng ts st)
    (tickSpawn rng ts st).activeDipoleIndices.reverse hnd
  have hframe := runActives_sameFrame (dtOf st ts) (tickSpawn rng ts st)
    (tickSpawn rng ts st).activeDipoleIndices.reverse
  rw [List.reverse_reverse] at hsurv
  constructor
  · show (tickLoop rng ts st).1.dipoles.length =
      (tickLoop rng ts st).1.maxDipoles
    rw [tickLoop_def]
    exact hframe.dipoles_length_eq.trans
      (hInv1.len_eq.trans hframe.maxDipoles_eq.symm)
  · intro i hi
    have hi1 : i < (tickSpawn rng ts st).maxDipoles := by
      rw [tickPre_max, tickLoop_def] at hi
      rw [← hframe.maxDipoles_eq]
      exact hi
    show ((tickLoop rng ts st).1.dip i).instanceIndex = i
    rw [tickLoop_def, runActives_idx]
    exact hInv1.idx_eq i hi1
  · intro i
    rw [tickPre_free, tickPre_active, tickPre_max, tickLoop_def, hfree, hsurv,
        hframe.maxDipoles_eq, List.count_append]
    have hp := hInv1.partition i
    by_cases hdie : diesNow (dtOf st ts) (tickSpawn rng ts st).params
        ((tickSpawn rng ts st).dip i)
    · rw [List.count_filter (by simpa using hdie), List.count_reverse,
          count_filter_false (by simp [hdie])]
      by_cases hi : i < (tickSpawn rng ts st).maxDipoles <;>
        simp only [hi, if_true, if_false] at hp ⊢ <;> omega
    · rw [count_filter_false (by simp [hdie]),
          List.count_filter (by simp [hdie])]
      by_cases hi : i < (tickSpawn rng ts st).maxDipoles <;>
        simp only [hi, if_true, if_false] at hp ⊢ <;> omega
  · intro i hi
    have hi1 : i < (tickSpawn rng ts st).maxDipoles := by
      rw [tickPre_max, tickLoop_def] at hi
      rw [← hframe.maxDipoles_eq]
      exact hi
    rw [tickPre_dip, tickPre_active, tickLoop_def]
    by_cases hmem : i ∈ (tickSpawn rng ts st).activeDipoleIndices
    · have hfin := runActives_final (dtOf st ts) (tickSpawn rng ts st)
        (tickSpawn rng ts st).activeDipoleIndices.reverse hidx hlen hnd i
        (List.mem_reverse.mpr hmem)
      by_cases hdie : diesNow (dtOf st ts) (tickSpawn rng ts st).params
          ((tickSpawn rng ts st).dip i)
      · obtain ⟨hdip, -, -⟩ := hfin.1 hdie
        rw [hdip, hsurv]
        constructor
        · intro h0
          simp at h0
        · intro hmem'
          rw [List.mem_filter] at hmem'
          simp [hdie] at hmem'
      · obtain ⟨hdip, -, -⟩ := hfin.2 hdie
        rw [hdip, hsurv]
        have hpos : 0 < (advancedDipole (dtOf st ts)
            (tickSpawn rng ts st).params ((tickSpawn rng ts st).dip i)).life := by
          have hgt := lt_of_not_le (fun hle => hdie hle)
          simpa [advancedDipole, agedLife] using hgt
        exact ⟨fun _ => List.mem_filter.mpr ⟨hmem, by simp [hdie]⟩,
               fun _ => hpos⟩
    · obtain ⟨hdip, -, -⟩ := runActives_untouched (dtOf st ts)
        (tickSpawn rng ts st) (tickSpawn rng ts st).activeDipoleIndices.reverse
        i hidx (fun h => hmem (List.mem_reverse.mp h))
      rw [hdip, hsurv]
      have hold := hInv1.life_iff i hi1
      constructor
      · intro h0
        exact absurd (hold.mp h0) hmem
      · intro hmem'
        exact absurd (List.mem_filter.mp hmem').1 hmem

theorem poolInv_tickSpawn (rng : ℕ → ℝ) (ts : ℝ) (st : WorkerState)
    (hInv : PoolInv st) (hlife : 0 < st.params.dipoleLifetime)
    (hrng : ∀ k, 0 ≤ rng k) : PoolInv (tickSpawn rng ts st) := by
  have hInvT : PoolInv ({ st with lastTimestamp := ts }) :=
    ⟨hInv.len_eq, hInv.idx_eq, hInv.partition, hInv.life_iff⟩
  unfold tickSpawn spawnPhase
  split
  · exact poolInv_createDipole _ _ hInvT hlife (hrng 1)
  · exact hInvT

theorem poolInv_tick (rng : ℕ → ℝ) (ts : ℝ) (st : WorkerState)
    (hInv : PoolInv st) (hlife : 0 < st.params.dipoleLifetime)
    (hrng : ∀ k, 0 ≤ rng k) : PoolInv (updateSimulation rng ts st) := by
  cases hrun : st.simulationRunning with
  | false => rw [updateSimulation_stopped hrun]; exact hInv
  | true =>
    rw [updateSimulation_run hrun]
    have hpre := poolInv_tickPre rng ts st (poolInv_tickSpawn rng ts st hInv hlife hrng)
    split
    · exact ⟨hpre.len_eq, hpre.idx_eq, hpre.partition, hpre.life_iff⟩
    · exact hpre

/-! ### Publish characterization and buffer generations -/

theorem publish_redGen (st : WorkerState) :
    (publish st).redBuf.gen = st.nextGen := rfl

theorem publish_blueGen (st : WorkerState) :
    (publish st).blueBuf.gen = st.nextGen + 1 := rfl

theorem publish_redBytes (st : WorkerState) :
    (publish st).redBuf.bytes = st.maxDipoles * 16 * 4 := rfl

theorem publish_blueBytes (st : WorkerState) :
    (publish st).blueBuf.bytes = st.maxDipoles * 16 * 4 := rfl

theorem publish_redData (st : WorkerState) (k : ℕ) :
    (publish st).redBuf.data k = Mat4.zero := rfl

theorem publish_blueData (st : WorkerState) (k : ℕ) :
    (publish st).blueBuf.data k = Mat4.zero := rfl

theorem publish_posted (st : WorkerState) :
    (publish st).posted = st.posted ++ [(st.redBuf, st.blueBuf)] := rfl

theorem publish_nextGen (st : WorkerState) :
    (publish st).nextGen = st.nextGen + 2 := rfl

/-- Allocation-counter sanity: the current write pair and every pair ever
posted carry generations below `nextGen`, and the current write pair's two
generations differ. -/
structure GenInv (st : WorkerState) : Prop where
  red_lt : st.redBuf.gen < st.nextGen
  blue_lt : st.blueBuf.gen < st.nextGen
  red_ne_blue : st.redBuf.gen ≠ st.blueBuf.gen
  posted_lt : ∀ q ∈ st.posted, q.1.gen < st.nextGen ∧ q.2.gen < st.nextGen

theorem genInv_initial : GenInv initialWorkerState :=
  ⟨by norm_num [initialWorkerState, freshBuffer],
   by norm_num [initialWorkerState, freshBuffer],
   by norm_num [initialWorkerState, freshBuffer],
   fun q hq => absurd hq (List.not_mem_nil q)⟩

theorem genInv_publish {st : WorkerState} (hg : GenInv st) :
    GenInv (publish st) := by
  constructor
  · rw [publish_redGen, publish_nextGen]; omega
  · rw [publish_blueGen, publish_nextGen]; omega
  · rw [publish_redGen, publish_blueGen]; omega
  · intro q hq
    rw [publish_posted] at hq
    rw [publish_nextGen]
    rcases List.mem_append.mp hq with hq | hq
    · have := hg.posted_lt q hq
      omega
    · rw [List.mem_singleton] at hq
      subst hq
      dsimp only
      have h1 := hg.red_lt
      have h2 := hg.blue_lt
      exact ⟨by omega, by omega⟩

/-- Immediately after any publish from a sane state, the write pair's fresh
generations differ from the generations of every pair ever posted,
including the pair just transferred. -/
theorem publish_fresh {st : WorkerState} (hg : GenInv st) :
    ∀ q ∈ (publish st).posted,
      (publish st).redBuf.gen ≠ q.1.gen ∧
      (publish st).redBuf.gen ≠ q.2.gen ∧
      (publish st).blueBuf.gen ≠ q.1.gen ∧
      (publish st).blueBuf.gen ≠ q.2.gen := by
  intro q hq
  rw [publish_posted] at hq
  rw [publish_redGen, publish_blueGen]
  rcases List.mem_append.mp hq with hq | hq
  · have := hg.posted_lt q hq
    exact ⟨by omega, by omega, by omega, by omega⟩
  · rw [List.mem_singleton] at hq
    subst hq
    dsimp only
    have h1 := hg.red_lt
    have h2 := hg.blue_lt
    exact ⟨by omega, by omega, by omega, by omega⟩

theorem tickPre_frame (rng : ℕ → ℝ) (ts : ℝ) (st : WorkerState) :
    (tickPre rng ts st).posted = st.posted ∧
    (tickPre rng ts st).nextGen = st.nextGen ∧
    (tickPre rng ts st).maxDipoles = st.maxDipoles ∧
    (tickPre rng ts st).params = st.params ∧
    (tickPre rng ts st).simulationRunning = st.simulationRunning ∧
    (tickPre rng ts st).redBuf.gen = st.redBuf.gen ∧
    (tickPre rng ts st).redBuf.bytes = st.redBuf.bytes ∧
    (tickPre rng ts st).blueBuf.gen = st.blueBuf.gen ∧
    (tickPre rng ts st).blueBuf.bytes = st.blueBuf.bytes := by
  have hrf := runActives_sameFrame (dtOf st ts) (tickSpawn rng ts st)
    (tickSpawn rng ts st).activeDipoleIndices.reverse
  obtain ⟨m, p, po, ng, lt, ru, oR, oB, le, rg, rb, bg, bb⟩ :=
    spawnPhase_frame rng (dtOf st ts) { st with lastTimestamp := ts }
  exact ⟨hrf.posted_eq.trans po, hrf.nextGen_eq.trans ng,
         hrf.maxDipoles_eq.trans m, hrf.params_eq.trans p,
         hrf.running_eq.trans ru, hrf.redGen_eq.trans rg,
         hrf.redBytes_eq.trans rb, hrf.blueGen_eq.trans bg,
         hrf.blueBytes_eq.trans bb⟩

theorem genInv_tickPre {rng : ℕ → ℝ} {ts : ℝ} {st : WorkerState}
    (hg : GenInv st) : GenInv (tickPre rng ts st) := by
  obtain ⟨po, ng, -, -, -, rg, -, bg, -⟩ := tickPre_frame rng ts st
  constructor
  · rw [rg, ng]; exact hg.red_lt
  · rw [bg, ng]; exact hg.blue_lt
  · rw [rg, bg]; exact hg.red_ne_blue
  · intro q hq
    rw [po] at hq
    rw [ng]
    exact hg.posted_lt q hq

theorem genInv_tick (rng : ℕ → ℝ) (ts : ℝ) (st : WorkerState)
    (hg : GenInv st) : GenInv (updateSimulation rng ts st) := by
  cases hrun : st.simulationRunning with
  | false => rw [updateSimulation_stopped hrun]; exact hg
  | true =>
    rw [updateSimulation_run hrun]
    split
    · exact genInv_publish (genInv_tickPre hg)
    · exact genInv_tickPre hg

/-! ### Concrete states for witnesses and counterexamples -/

/-- The embedding page's default parameter set. -/
def pOne : Params :=
  { dipoleLifetime := 4, speed := 1, creationProbability := 400,
    maxScaleBase := 1/2, scaleVariance := 4/5, spinSpeed := 1/2 }

/-- A single live particle record. -/
def dOne : Dipole :=
  { life := 11/5, maxLife := 16/5, maxScale := 2/5, axis := ⟨1, 0, 0⟩,
    instanceIndex := 0, position := ⟨0, 0, 0⟩, quaternion := ⟨0, 0, 0, 1⟩ }

/-- A running one-slot worker state holding a single live particle, with
`lastTimestamp` 1100 ms. -/
def stOne : WorkerState :=
  { dipoles := [dOne], instanceIndices := [], activeDipoleIndices := [0],
    maxDipoles := 1, params := pOne, lobeOffset := 9/100,
    redBuf := freshBuffer 0 1, blueBuf := freshBuffer 1 1,
    matrixOffsetRed := Mat4.makeTranslation 0 (9/100) 0,
    matrixOffsetBlue := Mat4.makeTranslation 0 (-(9/100)) 0,
    lastTimestamp := 1100, simulationRunning := true, nextGen := 2,
    posted := [] }

theorem poolInv_stOne : PoolInv stOne := by
  refine ⟨rfl, ?_, ?_, ?_⟩
  · intro i hi
    have h0 : i = 0 := by
      have : i < 1 := hi
      omega
    subst h0
    rfl
  · intro i
    rcases i with - | i
    · simp [stOne]
    · simp [stOne, List.count_cons]
  · intro i hi
    have h0 : i = 0 := by
      have : i < 1 := hi
      omega
    subst h0
    show (0:ℝ) < dOne.life ↔ 0 ∈ [0]
    norm_num [dOne]

/-- Worker state after an `init` with capacity 1 and the default
parameters, starting from a freshly loaded worker. -/
def stInit1 : WorkerState :=
  handleMessage (.init 1 pOne (9/100)) initialWorkerState

theorem stInit1_free : stInit1.instanceIndices = [0] := rfl

theorem stInit1_dip0 : stInit1.dip 0 = initDipole 0 := rfl

theorem stInit1_params : stInit1.params = pOne := rfl

theorem genInv_stOne : GenInv stOne :=
  ⟨by norm_num [stOne, freshBuffer], by norm_num [stOne, freshBuffer],
   by norm_num [stOne, freshBuffer],
   fun q hq => absurd hq (List.not_mem_nil q)⟩

/-! ## Claims -/

/-- Claim C1: after an `init` with capacity `n` the pool partition
invariant holds, and a tick from any invariant state with positive
configured lifetime, nonnegative speed, a timestamp at or after the stored
one, and random draws in `[0,1)` preserves it: the free and active lists
together hold each slot index `0..n-1` exactly once (no overlap, no gaps),
the active count never exceeds the capacity, and a slot's remaining life is
positive exactly when the slot is in the active list. -/
theorem pool_partition_invariant (n : ℕ) (p : Params) (off : ℝ)
    (st0 st : WorkerState) (rng : ℕ → ℝ) (ts : ℝ)
    (hInv : PoolInv st) (hlife : 0 < st.params.dipoleLifetime)
    (hspeed : 0 ≤ st.params.speed) (hdt : st.lastTimestamp ≤ ts)
    (hrng : ∀ k, 0 ≤ rng k ∧ rng k < 1) :
    PoolInv (handleMessage (.init n p off) st0) ∧
    PoolInv (updateSimulation rng ts st) ∧
    (updateSimulation rng ts st).activeDipoleIndices.length ≤
      (updateSimulation rng ts st).maxDipoles := by
  have htick := poolInv_tick rng ts st hInv hlife (fun k => (hrng k).1)
  refine ⟨poolInv_init n p off st0, htick, ?_⟩
  have hnd := htick.active_nodup
  have hlt := htick.active_lt
  calc (updateSimulation rng ts st).activeDipoleIndices.length
      = (updateSimulation rng ts st).activeDipoleIndices.toFinset.card :=
        (List.toFinset_card_of_nodup hnd).symm
    _ ≤ (Finset.range (updateSimulation rng ts st).maxDipoles).card :=
        Finset.card_le_card (fun x hx =>
          Finset.mem_range.mpr (hlt x (List.mem_toFinset.mp hx)))
    _ = (updateSimulation rng ts st).maxDipoles := Finset.card_range _

/-- Witness for C1 at concrete inputs: capacity 2 for the init part, and a
tick of the one-particle state `stOne` with draws 1/2 and timestamp equal
to the stored one. -/
theorem pool_partition_invariant_witness :
    PoolInv (handleMessage (.init 2 pOne (9/100)) initialWorkerState) ∧
    PoolInv (updateSimulation (fun _ => (1:ℝ)/2) 1100 stOne) ∧
    (updateSimulation (fun _ => (1:ℝ)/2) 1100 stOne).activeDipoleIndices.length ≤
      (updateSimulation (fun _ => (1:ℝ)/2) 1100 stOne).maxDipoles :=
  pool_partition_invariant 2 pOne (9/100) initialWorkerState stOne
    (fun _ => (1:ℝ)/2) 1100 poolInv_stOne
    (by norm_num [stOne, pOne]) (by norm_num [stOne, pOne])
    (by norm_num [stOne]) (fun k => by norm_num)

theorem spawnPhase_active_le (rng : ℕ → ℝ) (dt : ℝ) (st : WorkerState) :
    (spawnPhase rng dt st).activeDipoleIndices.length ≤
      st.activeDipoleIndices.length + 1 := by
  rcases spawnPhase_cases rng dt st with h | ⟨j, hj, h⟩
  · rw [h]; omega
  · rw [h, createDipole_some hj]; simp

/-- Claim C5: a single tick spawns at most one particle; the spawn phase
adds a particle exactly when the one uniform draw of the tick is below
`creationProbability * dt` and the free list is non-empty (a single
Bernoulli trial, also when the chance is `≥ 1`); with an empty free list
the spawn phase is a complete no-op — no error, no state change. -/
theorem spawn_gating (st : WorkerState) (rng : ℕ → ℝ) (ts dt : ℝ) :
    ((updateSimulation rng ts st).activeDipoleIndices.length ≤
      st.activeDipoleIndices.length + 1) ∧
    ((spawnPhase rng dt st).activeDipoleIndices.length =
        st.activeDipoleIndices.length + 1 ↔
      (rng 0 < st.params.creationProbability * dt ∧
        st.instanceIndices ≠ [])) ∧
    (st.instanceIndices = [] → spawnPhase rng dt st = st) := by
  refine ⟨?_, ?_, ?_⟩
  · cases hrun : st.simulationRunning with
    | false => rw [updateSimulation_stopped hrun]; omega
    | true =>
      rw [updateSimulation_run hrun]
      have hsurv : (updateSimulation rng ts st).activeDipoleIndices.length ≤
          (tickSpawn rng ts st).activeDipoleIndices.length := by
        rw [updateSimulation_run hrun]
        have hle := runActives_surv_le (dtOf st ts) (tickSpawn rng ts st)
          (tickSpawn rng ts st).activeDipoleIndices.reverse
        rw [List.length_reverse] at hle
        split <;> exact hle
      rw [← updateSimulation_run hrun]
      have hsp : (tickSpawn rng ts st).activeDipoleIndices.length ≤
          st.activeDipoleIndices.length + 1 :=
        spawnPhase_active_le rng (dtOf st ts) { st with lastTimestamp := ts }
      omega
  · constructor
    · intro hlen
      by_contra hcond
      rw [spawnPhase_of_neg hcond] at hlen
      omega
    · intro hcond
      rw [spawnPhase_of_pos hcond]
      cases hj : st.instanceIndices.getLast? with
      | none => exact absurd (List.getLast?_eq_none_iff.mp hj) hcond.2
      | some j => rw [createDipole_some hj]; simp
  · intro hfree
    apply spawnPhase_of_neg
    rintro ⟨-, hne⟩
    exact hne hfree

/-- Claim C4: a running tick appends exactly one pair to the posted log
precisely when the active list after the spawn phase is non-empty (at
least one particle was spawned, advanced or died); when that list is empty
nothing is posted and the write buffer pair is kept unchanged. -/
theorem tick_publish_iff (st : WorkerState) (rng : ℕ → ℝ) (ts : ℝ)
    (hrun : st.simulationRunning = true) :
    ((updateSimulation rng ts st).posted.length = st.posted.length + 1 ↔
      (tickSpawn rng ts st).activeDipoleIndices ≠ []) ∧
    ((tickSpawn rng ts st).activeDipoleIndices = [] →
      (updateSimulation rng ts st).posted = st.posted ∧
      (updateSimulation rng ts st).redBuf = st.redBuf ∧
      (updateSimulation rng ts st).blueBuf = st.blueBuf) := by
  have hcnt := tickLoop_updated rng ts st
  obtain ⟨po, -, -, -, -, -, -, -, -⟩ := tickPre_frame rng ts st
  have hempty : (tickSpawn rng ts st).activeDipoleIndices = [] →
      tickSpawn rng ts st = { st with lastTimestamp := ts } := by
    intro hact
    rcases spawnPhase_cases rng (dtOf st ts) { st with lastTimestamp := ts }
      with h | ⟨j, hj, h⟩
    · exact h
    · exfalso
      have : (tickSpawn rng ts st).activeDipoleIndices =
          ({ st with lastTimestamp := ts } : WorkerState).activeDipoleIndices
            ++ [j] := by
        show (spawnPhase rng (dtOf st ts) { st with lastTimestamp := ts }).activeDipoleIndices = _
        rw [h, createDipole_some hj]
      rw [hact] at this
      exact List.append_ne_nil_of_right_ne_nil _ (by simp) this.symm
  constructor
  · rw [updateSimulation_run hrun]
    constructor
    · intro hlen
      intro hact
      rw [hcnt, hact] at hlen
      simp only [List.length_nil, Nat.lt_irrefl, if_false] at hlen
      rw [po] at hlen
      omega
    · intro hact
      have hpos : 0 < (tickLoop rng ts st).2.2 := by
        rw [hcnt]
        exact List.length_pos.mpr hact
      rw [if_pos hpos, publish_posted, po]
      simp
  · intro hact
    have h0 : (tickLoop rng ts st).2.2 = 0 := by
      rw [hcnt, hact]
      rfl
    rw [updateSimulation_run hrun, h0]
    simp only [Nat.lt_irrefl, if_false]
    have hts := hempty hact
    have hloop : tickLoop rng ts st =
        (tickSpawn rng ts st, [], 0) := by
      rw [tickLoop_def]
      have : (tickSpawn rng ts st).activeDipoleIndices.reverse = [] := by
        rw [hact]; rfl
      rw [this]
      rfl
    refine ⟨?_, ?_, ?_⟩
    · show (tickPre rng ts st).posted = st.posted
      exact po
    · show (tickPre rng ts st).redBuf = st.redBuf
      rw [tickPre, hloop]
      rw [hts]
    · show (tickPre rng ts st).blueBuf = st.blueBuf
      rw [tickPre, hloop]
      rw [hts]

/-- Witness for C4 at the concrete running state `stOne`. -/
theorem tick_publish_iff_witness :
    (((updateSimulation (fun _ => (0:ℝ)) 1100 stOne).posted.length =
        stOne.posted.length + 1 ↔
      (tickSpawn (fun _ => (0:ℝ)) 1100 stOne).activeDipoleIndices ≠ [])) ∧
    ((tickSpawn (fun _ => (0:ℝ)) 1100 stOne).activeDipoleIndices = [] →
      (updateSimulation (fun _ => (0:ℝ)) 1100 stOne).posted = stOne.posted ∧
      (updateSimulation (fun _ => (0:ℝ)) 1100 stOne).redBuf = stOne.redBuf ∧
      (updateSimulation (fun _ => (0:ℝ)) 1100 stOne).blueBuf = stOne.blueBuf) :=
  tick_publish_iff stOne (fun _ => (0:ℝ)) 1100 rfl

theorem tickSpawn_offsets (rng : ℕ → ℝ) (ts : ℝ) (st : WorkerState) :
    (tickSpawn rng ts st).matrixOffsetRed = st.matrixOffsetRed ∧
    (tickSpawn rng ts st).matrixOffsetBlue = st.matrixOffsetBlue ∧
    (tickSpawn rng ts st).params = st.params := by
  obtain ⟨-, p, -, -, -, -, oR, oB, -, -, -, -, -⟩ :=
    spawnPhase_frame rng (dtOf st ts) { st with lastTimestamp := ts }
  exact ⟨oR, oB, p⟩

theorem tickSpawn_active (rng : ℕ → ℝ) (ts : ℝ) (st : WorkerState)
    (hInv : PoolInv st) (a : ℕ) (ha : a ∈ st.activeDipoleIndices) :
    a ∈ (tickSpawn rng ts st).activeDipoleIndices ∧
    (tickSpawn rng ts st).dip a = st.dip a := by
  have hfc : st.instanceIndices.count a = 0 := (hInv.active_count_one a ha).2
  unfold tickSpawn
  rcases spawnPhase_cases rng (dtOf st ts) { st with lastTimestamp := ts }
    with h | ⟨j, hj, h⟩
  · rw [h]
    exact ⟨ha, rfl⟩
  · have hjmem : j ∈ st.instanceIndices := List.mem_of_mem_getLast? hj
    have hja : j ≠ a := by
      intro hje
      subst hje
      have := List.one_le_count_iff.mpr hjmem
      omega
    rw [h, createDipole_some hj]
    refine ⟨List.mem_append_left _ ha, ?_⟩
    simp only [WorkerState.dip]
    rw [dip_set]
    rw [if_neg (fun hc => hja hc.1)]

/-- Claim C3: across a running tick with nonnegative `dt · speed`, an
active particle's remaining life never increases; and a particle whose
decremented life reaches `≤ 0` during the tick ends with life exactly `0`
(marked dead), is removed from the active list, has its slot appended to
the free list exactly once, and has a zero-scale transform written for its
slot into both lobe buffers of the pair published this tick. -/
theorem particle_lifecycle (st : WorkerState) (rng : ℕ → ℝ) (ts : ℝ) (a : ℕ)
    (hInv : PoolInv st) (hrun : st.simulationRunning = true)
    (hlife : 0 < st.params.dipoleLifetime) (hrng : ∀ k, 0 ≤ rng k)
    (hdtsp : 0 ≤ dtOf st ts * st.params.speed)
    (ha : a ∈ st.activeDipoleIndices) :
    (((updateSimulation rng ts st).dip a).life ≤ (st.dip a).life) ∧
    ((st.dip a).life - dtOf st ts * st.params.speed ≤ 0 →
      ((updateSimulation rng ts st).dip a).life = 0 ∧
      a ∉ (updateSimulation rng ts st).activeDipoleIndices ∧
      (updateSimulation rng ts st).instanceIndices.count a =
        st.instanceIndices.count a + 1 ∧
      ∃ r b, (updateSimulation rng ts st).posted = st.posted ++ [(r, b)] ∧
        r.data a = lobeMatrix (st.dip a).position (st.dip a).quaternion 0
          st.matrixOffsetRed ∧
        b.data a = lobeMatrix (st.dip a).position (st.dip a).quaternion 0
          st.matrixOffsetBlue) := by
  have hInv1 := poolInv_tickSpawn rng ts st hInv hlife hrng
  obtain ⟨ha1, hdipa⟩ := tickSpawn_active rng ts st hInv a ha
  obtain ⟨hoffR, hoffB, hpar⟩ := tickSpawn_offsets rng ts st
  obtain ⟨po, -, -, -, -, -, -, -, -⟩ := tickPre_frame rng ts st
  have hnd : (tickSpawn rng ts st).activeDipoleIndices.reverse.Nodup :=
    List.nodup_reverse.mpr hInv1.active_nodup
  have hidx : ∀ b ∈ (tickSpawn rng ts st).activeDipoleIndices.reverse,
      ((tickSpawn rng ts st).dip b).instanceIndex = b :=
    fun b hb => hInv1.active_idx b (List.mem_reverse.mp hb)
  have hlen : ∀ b ∈ (tickSpawn rng ts st).activeDipoleIndices.reverse,
      b < (tickSpawn rng ts st).dipoles.length := fun b hb => by
    rw [hInv1.len_eq]; exact hInv1.active_lt b (List.mem_reverse.mp hb)
  have hfin := runActives_final (dtOf st ts) (tickSpawn rng ts st)
    (tickSpawn rng ts st).activeDipoleIndices.reverse hidx hlen hnd a
    (List.mem_reverse.mpr ha1)
  have hsurv := runActives_surv (dtOf st ts) (tickSpawn rng ts st)
    (tickSpawn rng ts st).activeDipoleIndices.reverse hnd
  rw [List.reverse_reverse] at hsurv
  have hfree := runActives_free (dtOf st ts) (tickSpawn rng ts st)
    (tickSpawn rng ts st).activeDipoleIndices.reverse hidx hnd
  have hposcnt : 0 < (tickLoop rng ts st).2.2 := by
    rw [tickLoop_updated]
    exact List.length_pos.mpr (fun hemp => by
      rw [hemp] at ha1
      exact (List.not_mem_nil a) ha1)
  have htick : updateSimulation rng ts st = publish (tickPre rng ts st) := by
    rw [updateSimulation_run hrun, if_pos hposcnt]
  have hdip_tick : (updateSimulation rng ts st).dip a =
      (runActives (dtOf st ts) (tickSpawn rng ts st)
        (tickSpawn rng ts st).activeDipoleIndices.reverse).1.dip a := by
    rw [htick]; rfl
  constructor
  · -- monotonicity of remaining life
    by_cases hdie : diesNow (dtOf st ts) (tickSpawn rng ts st).params
        ((tickSpawn rng ts st).dip a)
    · obtain ⟨hdip, -, -⟩ := hfin.1 hdie
      rw [hdip_tick, hdip]
      have hlt : a < st.maxDipoles := hInv.active_lt a ha
      have := (hInv.life_iff a hlt).mpr ha
      show (0:ℝ) ≤ (st.dip a).life
      exact this.le
    · obtain ⟨hdip, -, -⟩ := hfin.2 hdie
      rw [hdip_tick, hdip]
      show ((tickSpawn rng ts st).dip a).life -
          dtOf st ts * (tickSpawn rng ts st).params.speed ≤ (st.dip a).life
      rw [hdipa, hpar]
      linarith
  · intro hdead
    have hdie : diesNow (dtOf st ts) (tickSpawn rng ts st).params
        ((tickSpawn rng ts st).dip a) := by
      show ((tickSpawn rng ts st).dip a).life -
          dtOf st ts * (tickSpawn rng ts st).params.speed ≤ 0
      rw [hdipa, hpar]
      exact hdead
    obtain ⟨hdip, hred, hblue⟩ := hfin.1 hdie
    refine ⟨?_, ?_, ?_, ?_⟩
    · rw [hdip_tick, hdip]
    · rw [htick]
      show a ∉ (tickLoop rng ts st).2.1
      rw [tickLoop_def, hsurv]
      intro hmem
      have := (List.mem_filter.mp hmem).2
      simp [hdie] at this
    · have hcf : (updateSimulation rng ts st).instanceIndices =
          (tickSpawn rng ts st).instanceIndices ++
            ((tickSpawn rng ts st).activeDipoleIndices.reverse.filter
              (fun b => decide (diesNow (dtOf st ts)
                (tickSpawn rng ts st).params ((tickSpawn rng ts st).dip b)))) := by
        rw [htick]
        show (tickPre rng ts st).instanceIndices = _
        rw [tickPre_free, tickLoop_def, hfree]
      rw [hcf, List.count_append, List.count_filter (by simpa using hdie),
          List.count_reverse]
      have h1 : (tickSpawn rng ts st).activeDipoleIndices.count a = 1 :=
        (hInv1.active_count_one a ha1).1
      have h2 : (tickSpawn rng ts st).instanceIndices.count a = 0 :=
        (hInv1.active_count_one a ha1).2
      have h3 : st.instanceIndices.count a = 0 :=
        (hInv.active_count_one a ha).2
      omega
    · refine ⟨(tickPre rng ts st).redBuf, (tickPre rng ts st).blueBuf, ?_, ?_, ?_⟩
      · rw [htick, publish_posted, po]
      · show (tickLoop rng ts st).1.redBuf.data a = _
        rw [tickLoop_def, hred, hdipa, hoffR]
      · show (tickLoop rng ts st).1.blueBuf.data a = _
        rw [tickLoop_def, hblue, hdipa, hoffB]

/-- Witness for C3: the one-particle state `stOne` ticked with zero
elapsed time and the all-zero draw stream. -/
theorem particle_lifecycle_witness :
    (((updateSimulation (fun _ => (0:ℝ)) 1100 stOne).dip 0).life ≤
      (stOne.dip 0).life) ∧
    ((stOne.dip 0).life - dtOf stOne 1100 * stOne.params.speed ≤ 0 →
      ((updateSimulation (fun _ => (0:ℝ)) 1100 stOne).dip 0).life = 0 ∧
      0 ∉ (updateSimulation (fun _ => (0:ℝ)) 1100 stOne).activeDipoleIndices ∧
      (updateSimulation (fun _ => (0:ℝ)) 1100 stOne).instanceIndices.count 0 =
        stOne.instanceIndices.count 0 + 1 ∧
      ∃ r b, (updateSimulation (fun _ => (0:ℝ)) 1100 stOne).posted =
          stOne.posted ++ [(r, b)] ∧
        r.data 0 = lobeMatrix (stOne.dip 0).position (stOne.dip 0).quaternion 0
          stOne.matrixOffsetRed ∧
        b.data 0 = lobeMatrix (stOne.dip 0).position (stOne.dip 0).quaternion 0
          stOne.matrixOffsetBlue) :=
  particle_lifecycle stOne (fun _ => (0:ℝ)) 1100 0 poolInv_stOne rfl
    (by norm_num [stOne, pOne]) (fun k => le_refl 0)
    (by norm_num [dtOf, stOne, pOne]) (by simp [stOne])

/-- Claim C7: a particle surviving a running tick has both lobe transforms
written with scale `envScale p maxScale = sin(p·π)·maxScale` where
`p = (ageTotal - ageRemaining)/ageTotal` computed from the decremented
life, and `p` lies in `[0,1)`; moreover the envelope equals the peak scale
exactly at `p = 1/2`, is `0` at `p = 0`, and tends to `0` as `p → 1`. -/
theorem scale_envelope (st : WorkerState) (rng : ℕ → ℝ) (ts : ℝ) (a : ℕ)
    (M : ℝ)
    (hInv : PoolInv st) (hrun : st.simulationRunning = true)
    (hlife : 0 < st.params.dipoleLifetime) (hrng : ∀ k, 0 ≤ rng k)
    (hdtsp : 0 ≤ dtOf st ts * st.params.speed)
    (ha : a ∈ st.activeDipoleIndices)
    (hml : (st.dip a).life ≤ (st.dip a).maxLife)
    (hmlpos : 0 < (st.dip a).maxLife)
    (halive : 0 < (st.dip a).life - dtOf st ts * st.params.speed) :
    (0 ≤ ((st.dip a).maxLife -
        ((st.dip a).life - dtOf st ts * st.params.speed)) /
        (st.dip a).maxLife ∧
      ((st.dip a).maxLife -
        ((st.dip a).life - dtOf st ts * st.params.speed)) /
        (st.dip a).maxLife < 1) ∧
    (∃ r b, (updateSimulation rng ts st).posted = st.posted ++ [(r, b)] ∧
      r.data a = lobeMatrix (st.dip a).position
        (Quat.multiply (Quat.setFromAxisAngle (st.dip a).axis
          (dtOf st ts * st.params.spinSpeed)) (st.dip a).quaternion)
        (envScale (((st.dip a).maxLife -
            ((st.dip a).life - dtOf st ts * st.params.speed)) /
          (st.dip a).maxLife) (st.dip a).maxScale) st.matrixOffsetRed ∧
      b.data a = lobeMatrix (st.dip a).position
        (Quat.multiply (Quat.setFromAxisAngle (st.dip a).axis
          (dtOf st ts * st.params.spinSpeed)) (st.dip a).quaternion)
        (envScale (((st.dip a).maxLife -
            ((st.dip a).life - dtOf st ts * st.params.speed)) /
          (st.dip a).maxLife) (st.dip a).maxScale) st.matrixOffsetBlue) ∧
    envScale (1/2) M = M ∧
    envScale 0 M = 0 ∧
    Filter.Tendsto (fun q => envScale q M) (nhds 1) (nhds 0) := by
  have hInv1 := poolInv_tickSpawn rng ts st hInv hlife hrng
  obtain ⟨ha1, hdipa⟩ := tickSpawn_active rng ts st hInv a ha
  obtain ⟨hoffR, hoffB, hpar⟩ := tickSpawn_offsets rng ts st
  obtain ⟨po, -, -, -, -, -, -, -, -⟩ := tickPre_frame rng ts st
  have hnd : (tickSpawn rng ts st).activeDipoleIndices.reverse.Nodup :=
    List.nodup_reverse.mpr hInv1.active_nodup
  have hidx : ∀ b ∈ (tickSpawn rng ts st).activeDipoleIndices.reverse,
      ((tickSpawn rng ts st).dip b).instanceIndex = b :=
    fun b hb => hInv1.active_idx b (List.mem_reverse.mp hb)
  have hlen : ∀ b ∈ (tickSpawn rng ts st).activeDipoleIndices.reverse,
      b < (tickSpawn rng ts st).dipoles.length := fun b hb => by
    rw [hInv1.len_eq]; exact hInv1.active_lt b (List.mem_reverse.mp hb)
  have hfin := runActives_final (dtOf st ts) (tickSpawn rng ts st)
    (tickSpawn rng ts st).activeDipoleIndices.reverse hidx hlen hnd a
    (List.mem_reverse.mpr ha1)
  have hposcnt : 0 < (tickLoop rng ts st).2.2 := by
    rw [tickLoop_updated]
    exact List.length_pos.mpr (fun hemp => by
      rw [hemp] at ha1
      exact (List.not_mem_nil a) ha1)
  have htick : updateSimulation rng ts st = publish (tickPre rng ts st) := by
    rw [updateSimulation_run hrun, if_pos hposcnt]
  have hdie : ¬ diesNow (dtOf st ts) (tickSpawn rng ts st).params
      ((tickSpawn rng ts st).dip a) := by
    show ¬ (((tickSpawn rng ts st).dip a).life -
        dtOf st ts * (tickSpawn rng ts st).params.speed ≤ 0)
    rw [hdipa, hpar]
    linarith
  obtain ⟨hdip, hred, hblue⟩ := hfin.2 hdie
  rw [hdipa, hpar, hoffR] at hred
  rw [hdipa, hpar, hoffB] at hblue
  refine ⟨⟨?_, ?_⟩, ⟨(tickPre rng ts st).redBuf, (tickPre rng ts st).blueBuf,
    ?_, ?_, ?_⟩, ?_, ?_, ?_⟩
  · exact div_nonneg (by linarith) hmlpos.le
  · rw [div_lt_one hmlpos]
    linarith
  · rw [htick, publish_posted, po]
  · show (tickLoop rng ts st).1.redBuf.data a = _
    rw [tickLoop_def, hred]
    rfl
  · show (tickLoop rng ts st).1.blueBuf.data a = _
    rw [tickLoop_def, hblue]
    rfl
  · unfold envScale
    rw [show (1/2 : ℝ) * Real.pi = Real.pi / 2 by ring, Real.sin_pi_div_two,
        one_mul]
  · unfold envScale
    rw [zero_mul, Real.sin_zero, zero_mul]
  · have hc : Continuous fun q : ℝ => envScale q M := by
      unfold envScale
      exact (Real.continuous_sin.comp
        (continuous_id.mul continuous_const)).mul continuous_const
    have h1 : envScale 1 M = 0 := by
      unfold envScale
      rw [one_mul, Real.sin_pi, zero_mul]
    have ht := hc.tendsto 1
    rw [h1] at ht
    exact ht

/-- Witness for C7: the surviving particle of `stOne` at a zero-dt tick,
with peak scale argument 7. -/
theorem scale_envelope_witness :
    (0 ≤ ((stOne.dip 0).maxLife -
        ((stOne.dip 0).life - dtOf stOne 1100 * stOne.params.speed)) /
        (stOne.dip 0).maxLife ∧
      ((stOne.dip 0).maxLife -
        ((stOne.dip 0).life - dtOf stOne 1100 * stOne.params.speed)) /
        (stOne.dip 0).maxLife < 1) ∧
    (∃ r b, (updateSimulation (fun _ => (0:ℝ)) 1100 stOne).posted =
        stOne.posted ++ [(r, b)] ∧
      r.data 0 = lobeMatrix (stOne.dip 0).position
        (Quat.multiply (Quat.setFromAxisAngle (stOne.dip 0).axis
          (dtOf stOne 1100 * stOne.params.spinSpeed)) (stOne.dip 0).quaternion)
        (envScale (((stOne.dip 0).maxLife -
            ((stOne.dip 0).life - dtOf stOne 1100 * stOne.params.speed)) /
          (stOne.dip 0).maxLife) (stOne.dip 0).maxScale)
        stOne.matrixOffsetRed ∧
      b.data 0 = lobeMatrix (stOne.dip 0).position
        (Quat.multiply (Quat.setFromAxisAngle (stOne.dip 0).axis
          (dtOf stOne 1100 * stOne.params.spinSpeed)) (stOne.dip 0).quaternion)
        (envScale (((stOne.dip 0).maxLife -
            ((stOne.dip 0).life - dtOf stOne 1100 * stOne.params.speed)) /
          (stOne.dip 0).maxLife) (stOne.dip 0).maxScale)
        stOne.matrixOffsetBlue) ∧
    envScale (1/2) 7 = 7 ∧
    envScale 0 7 = 0 ∧
    Filter.Tendsto (fun q => envScale q 7) (nhds 1) (nhds 0) :=
  scale_envelope stOne (fun _ => (0:ℝ)) 1100 0 7 poolInv_stOne rfl
    (by norm_num [stOne, pOne]) (fun k => le_refl 0)
    (by norm_num [dtOf, stOne, pOne]) (by simp [stOne])
    (by norm_num [stOne, WorkerState.dip, dOne])
    (by norm_num [stOne, WorkerState.dip, dOne])
    (by norm_num [dtOf, stOne, pOne, WorkerState.dip, dOne])

/-- The worker state built by the `init` handler just before its initial
post: fresh pool, per-lobe offset matrices, and a first buffer pair. -/
def initCore (n : ℕ) (p : Params) (off : ℝ) (st : WorkerState) : WorkerState :=
  { st with
    maxDipoles := n, params := p, lobeOffset := off,
    dipoles := (List.range n).map initDipole,
    instanceIndices := List.range n,
    activeDipoleIndices := [],
    matrixOffsetRed := Mat4.makeTranslation 0 off 0,
    matrixOffsetBlue := Mat4.makeTranslation 0 (-off) 0,
    redBuf := freshBuffer st.nextGen n,
    blueBuf := freshBuffer (st.nextGen + 1) n,
    nextGen := st.nextGen + 2 }

theorem handleInit_eq (n : ℕ) (p : Params) (off : ℝ) (st : WorkerState) :
    handleMessage (.init n p off) st = publish (initCore n p off st) := rfl

theorem genInv_initCore {n : ℕ} {p : Params} {off : ℝ} {st0 : WorkerState}
    (hg0 : GenInv st0) : GenInv (initCore n p off st0) := by
  refine ⟨?_, ?_, ?_, ?_⟩
  · show st0.nextGen < st0.nextGen + 2
    omega
  · show st0.nextGen + 1 < st0.nextGen + 2
    omega
  · show st0.nextGen ≠ st0.nextGen + 1
    omega
  · intro q hq
    show q.1.gen < st0.nextGen + 2 ∧ q.2.gen < st0.nextGen + 2
    have := hg0.posted_lt q hq
    omega

/-- Claim C2: at both post sites (the initial post of the `init` handler
and the per-tick publish), the worker transfers its current pair by
appending it to the posted log — which is append-only and whose entries
are never mutated afterwards — and immediately allocates a fresh pair of
`maxDipoles * 16 * 4`-byte zero-filled buffers whose allocation
generations differ from the generations of every pair ever posted, so the
simulation's subsequent matrix writes (which always target the current
write pair) never touch the bytes of a transferred pair. -/
theorem buffer_ownership (st st0 : WorkerState) (rng : ℕ → ℝ) (ts : ℝ)
    (n : ℕ) (p : Params) (off : ℝ) (hg : GenInv st) (hg0 : GenInv st0) :
    GenInv initialWorkerState ∧
    GenInv (updateSimulation rng ts st) ∧
    GenInv (handleMessage (.init n p off) st0) ∧
    ((updateSimulation rng ts st).posted = st.posted ∨
      ∃ q, (updateSimulation rng ts st).posted = st.posted ++ [q]) ∧
    (∀ q, (updateSimulation rng ts st).posted = st.posted ++ [q] →
      (updateSimulation rng ts st).redBuf.bytes = st.maxDipoles * 16 * 4 ∧
      (updateSimulation rng ts st).blueBuf.bytes = st.maxDipoles * 16 * 4 ∧
      (∀ k, (updateSimulation rng ts st).redBuf.data k = Mat4.zero ∧
            (updateSimulation rng ts st).blueBuf.data k = Mat4.zero) ∧
      (∀ q' ∈ (updateSimulation rng ts st).posted,
        (updateSimulation rng ts st).redBuf.gen ≠ q'.1.gen ∧
        (updateSimulation rng ts st).redBuf.gen ≠ q'.2.gen ∧
        (updateSimulation rng ts st).blueBuf.gen ≠ q'.1.gen ∧
        (updateSimulation rng ts st).blueBuf.gen ≠ q'.2.gen)) ∧
    (∃ r b,
      (handleMessage (.init n p off) st0).posted = st0.posted ++ [(r, b)] ∧
      r.bytes = n * 16 * 4 ∧ b.bytes = n * 16 * 4 ∧
      (handleMessage (.init n p off) st0).redBuf.bytes = n * 16 * 4 ∧
      (handleMessage (.init n p off) st0).blueBuf.bytes = n * 16 * 4 ∧
      (∀ k, (handleMessage (.init n p off) st0).redBuf.data k = Mat4.zero ∧
            (handleMessage (.init n p off) st0).blueBuf.data k = Mat4.zero) ∧
      (∀ q' ∈ (handleMessage (.init n p off) st0).posted,
        (handleMessage (.init n p off) st0).redBuf.gen ≠ q'.1.gen ∧
        (handleMessage (.init n p off) st0).redBuf.gen ≠ q'.2.gen ∧
        (handleMessage (.init n p off) st0).blueBuf.gen ≠ q'.1.gen ∧
        (handleMessage (.init n p off) st0).blueBuf.gen ≠ q'.2.gen)) := by
  obtain ⟨po, -, mx, -, -, -, -, -, -⟩ := tickPre_frame rng ts st
  refine ⟨genInv_initial, genInv_tick rng ts st hg, ?_, ?_, ?_, ?_⟩
  · rw [handleInit_eq]
    exact genInv_publish (genInv_initCore hg0)
  · cases hrun : st.simulationRunning with
    | false =>
      rw [updateSimulation_stopped hrun]
      exact Or.inl rfl
    | true =>
      rw [updateSimulation_run hrun]
      split
      · refine Or.inr ⟨((tickPre rng ts st).redBuf, (tickPre rng ts st).blueBuf), ?_⟩
        rw [publish_posted, po]
      · exact Or.inl po
  · intro q hq
    cases hrun : st.simulationRunning with
    | false =>
      rw [updateSimulation_stopped hrun] at hq
      exfalso
      have := congrArg List.length hq
      simp at this
    | true =>
      rw [updateSimulation_run hrun] at hq ⊢
      by_cases hcnt : 0 < (tickLoop rng ts st).2.2
      · rw [if_pos hcnt] at hq ⊢
        refine ⟨?_, ?_, ?_, ?_⟩
        · rw [publish_redBytes, mx]
        · rw [publish_blueBytes, mx]
        · intro k
          exact ⟨publish_redData _ k, publish_blueData _ k⟩
        · exact publish_fresh (genInv_tickPre hg)
      · rw [if_neg hcnt, po] at hq
        exfalso
        have := congrArg List.length hq
        simp at this
  · refine ⟨freshBuffer st0.nextGen n, freshBuffer (st0.nextGen + 1) n,
      rfl, rfl, rfl, rfl, rfl, fun k => ⟨rfl, rfl⟩, ?_⟩
    rw [handleInit_eq]
    exact publish_fresh (genInv_initCore hg0)

/-- Witness for C2 at the concrete states `stOne` and the freshly loaded
worker. -/
theorem buffer_ownership_witness :
    GenInv initialWorkerState ∧
    GenInv (updateSimulation (fun _ => (0:ℝ)) 1100 stOne) ∧
    GenInv (handleMessage (.init 1 pOne (9/100)) initialWorkerState) ∧
    ((updateSimulation (fun _ => (0:ℝ)) 1100 stOne).posted = stOne.posted ∨
      ∃ q, (updateSimulation (fun _ => (0:ℝ)) 1100 stOne).posted =
        stOne.posted ++ [q]) ∧
    (∀ q, (updateSimulation (fun _ => (0:ℝ)) 1100 stOne).posted =
        stOne.posted ++ [q] →
      (updateSimulation (fun _ => (0:ℝ)) 1100 stOne).redBuf.bytes =
        stOne.maxDipoles * 16 * 4 ∧
      (updateSimulation (fun _ => (0:ℝ)) 1100 stOne).blueBuf.bytes =
        stOne.maxDipoles * 16 * 4 ∧
      (∀ k, (updateSimulation (fun _ => (0:ℝ)) 1100 stOne).redBuf.data k =
          Mat4.zero ∧
        (updateSimulation (fun _ => (0:ℝ)) 1100 stOne).blueBuf.data k =
          Mat4.zero) ∧
      (∀ q' ∈ (updateSimulation (fun _ => (0:ℝ)) 1100 stOne).posted,
        (updateSimulation (fun _ => (0:ℝ)) 1100 stOne).redBuf.gen ≠ q'.1.gen ∧
        (updateSimulation (fun _ => (0:ℝ)) 1100 stOne).redBuf.gen ≠ q'.2.gen ∧
        (updateSimulation (fun _ => (0:ℝ)) 1100 stOne).blueBuf.gen ≠ q'.1.gen ∧
        (updateSimulation (fun _ => (0:ℝ)) 1100 stOne).blueBuf.gen ≠ q'.2.gen)) ∧
    (∃ r b, (handleMessage (.init 1 pOne (9/100)) initialWorkerState).posted =
        initialWorkerState.posted ++ [(r, b)] ∧
      r.bytes = 1 * 16 * 4 ∧ b.bytes = 1 * 16 * 4 ∧
      (handleMessage (.init 1 pOne (9/100)) initialWorkerState).redBuf.bytes =
        1 * 16 * 4 ∧
      (handleMessage (.init 1 pOne (9/100)) initialWorkerState).blueBuf.bytes =
        1 * 16 * 4 ∧
      (∀ k, (handleMessage (.init 1 pOne (9/100))
          initialWorkerState).redBuf.data k = Mat4.zero ∧
        (handleMessage (.init 1 pOne (9/100))
          initialWorkerState).blueBuf.data k = Mat4.zero) ∧
      (∀ q' ∈ (handleMessage (.init 1 pOne (9/100))
          initialWorkerState).posted,
        (handleMessage (.init 1 pOne (9/100))
          initialWorkerState).redBuf.gen ≠ q'.1.gen ∧
        (handleMessage (.init 1 pOne (9/100))
          initialWorkerState).redBuf.gen ≠ q'.2.gen ∧
        (handleMessage (.init 1 pOne (9/100))
          initialWorkerState).blueBuf.gen ≠ q'.1.gen ∧
        (handleMessage (.init 1 pOne (9/100))
          initialWorkerState).blueBuf.gen ≠ q'.2.gen)) :=
  buffer_ownership stOne initialWorkerState (fun _ => (0:ℝ)) 1100 1 pOne
    (9/100) genInv_stOne genInv_initial

/-- Claim C6 counterexample: when all three axis draws are exactly 0.5 the
sampled direction vector is zero, `Vec3.normalize` leaves its output
untouched, and the particle spawned right after an `init` keeps the zero
vector as spin axis — not normalized, refuting the claim's "for every RNG
outcome" normalization. -/
theorem spawn_axis_not_normalized :
    ((createDipole (fun _ => (1:ℝ)/2) stInit1).dip 0).axis = ⟨0, 0, 0⟩ ∧
    Vec3.normSq ((createDipole (fun _ => (1:ℝ)/2) stInit1).dip 0).axis ≠ 1 := by
  have hj : stInit1.instanceIndices.getLast? = some 0 := rfl
  have hlen1 : (0:ℕ) < stInit1.dipoles.length := by
    have h1 : stInit1.dipoles.length = 1 := rfl
    omega
  have hdip : ((createDipole (fun _ => (1:ℝ)/2) stInit1).dip 0) =
      spawnDipole (fun _ => (1:ℝ)/2) stInit1 0 := by
    rw [createDipole_some hj]
    simp only [WorkerState.dip]
    rw [dip_set, if_pos ⟨rfl, hlen1⟩]
  have haxis : (spawnDipole (fun _ => (1:ℝ)/2) stInit1 0).axis =
      (⟨0, 0, 0⟩ : Vec3) := by
    show Vec3.normalize (stInit1.dip 0).axis
      ⟨(1:ℝ)/2 - 0.5, (1:ℝ)/2 - 0.5, (1:ℝ)/2 - 0.5⟩ = _
    rw [stInit1_dip0]
    show Vec3.normalize ⟨0, 0, 0⟩ _ = _
    simp only [Vec3.normalize]
    rw [if_neg (by norm_num)]
  rw [hdip, haxis]
  refine ⟨rfl, ?_⟩
  unfold Vec3.normSq
  norm_num

/-- Claim C6 (amended): `createDipole` pops the last free slot `j` and
initializes it: life and maxLife equal to
`dipoleLifetime·(0.8 + r₀·0.4) ∈ [0.8, 1.2)·dipoleLifetime`; peak scale in
`maxScaleBase·[1 - scaleVariance, 1 + scaleVariance)`; every position
coordinate in `[-4, 4)`; both lobe transforms immediately written with
uniform scale exactly 0.001; and the spin axis normalized provided at
least one of the three axis draws differs from 0.5 (when all three equal
0.5 the sampled vector is zero and the axis keeps its previous value). -/
theorem spawn_initialization (st : WorkerState) (rng : ℕ → ℝ) (j : ℕ)
    (hj : st.instanceIndices.getLast? = some j)
    (hjlen : j < st.dipoles.length)
    (hrng : ∀ k, 0 ≤ rng k ∧ rng k < 1)
    (hlife : 0 < st.params.dipoleLifetime)
    (hbase : 0 < st.params.maxScaleBase)
    (hvar : 0 < st.params.scaleVariance)
    (hax : rng 2 ≠ 0.5 ∨ rng 3 ≠ 0.5 ∨ rng 4 ≠ 0.5) :
    ((createDipole rng st).dip j = spawnDipole rng st j) ∧
    (spawnDipole rng st j).life =
      st.params.dipoleLifetime * (0.8 + rng 0 * 0.4) ∧
    (spawnDipole rng st j).maxLife = (spawnDipole rng st j).life ∧
    0.8 * st.params.dipoleLifetime ≤ (spawnDipole rng st j).life ∧
    (spawnDipole rng st j).life < 1.2 * st.params.dipoleLifetime ∧
    st.params.maxScaleBase * (1 - st.params.scaleVariance) ≤
      (spawnDipole rng st j).maxScale ∧
    (spawnDipole rng st j).maxScale <
      st.params.maxScaleBase * (1 + st.params.scaleVariance) ∧
    (-4 ≤ (spawnDipole rng st j).position.x ∧
      (spawnDipole rng st j).position.x < 4) ∧
    (-4 ≤ (spawnDipole rng st j).position.y ∧
      (spawnDipole rng st j).position.y < 4) ∧
    (-4 ≤ (spawnDipole rng st j).position.z ∧
      (spawnDipole rng st j).position.z < 4) ∧
    Vec3.normSq (spawnDipole rng st j).axis = 1 ∧
    (createDipole rng st).redBuf.data j =
      lobeMatrix (spawnDipole rng st j).position
        (spawnDipole rng st j).quaternion 0.001 st.matrixOffsetRed ∧
    (createDipole rng st).blueBuf.data j =
      lobeMatrix (spawnDipole rng st j).position
        (spawnDipole rng st j).quaternion 0.001 st.matrixOffsetBlue := by
  obtain ⟨h00, h01⟩ := hrng 0
  obtain ⟨h10, h11⟩ := hrng 1
  obtain ⟨h50, h51⟩ := hrng 5
  obtain ⟨h60, h61⟩ := hrng 6
  obtain ⟨h70, h71⟩ := hrng 7
  have hlenpos : 0 < (rng 2 - 0.5) * (rng 2 - 0.5) +
      (rng 3 - 0.5) * (rng 3 - 0.5) + (rng 4 - 0.5) * (rng 4 - 0.5) := by
    rcases hax with h | h | h
    · have hp := mul_self_pos.mpr (sub_ne_zero.mpr h)
      have q1 := mul_self_nonneg (rng 3 - 0.5)
      have q2 := mul_self_nonneg (rng 4 - 0.5)
      linarith
    · have hp := mul_self_pos.mpr (sub_ne_zero.mpr h)
      have q1 := mul_self_nonneg (rng 2 - 0.5)
      have q2 := mul_self_nonneg (rng 4 - 0.5)
      linarith
    · have hp := mul_self_pos.mpr (sub_ne_zero.mpr h)
      have q1 := mul_self_nonneg (rng 2 - 0.5)
      have q2 := mul_self_nonneg (rng 3 - 0.5)
      linarith
  refine ⟨?_, rfl, rfl, ?_, ?_, ?_, ?_, ?_, ?_, ?_, ?_, ?_, ?_⟩
  · rw [createDipole_some hj]
    simp only [WorkerState.dip]
    rw [dip_set, if_pos ⟨rfl, hjlen⟩]
  · show 0.8 * st.params.dipoleLifetime ≤
      st.params.dipoleLifetime * (0.8 + rng 0 * 0.4)
    nlinarith [mul_nonneg hlife.le h00]
  · show st.params.dipoleLifetime * (0.8 + rng 0 * 0.4) <
      1.2 * st.params.dipoleLifetime
    nlinarith [mul_pos hlife (sub_pos.mpr h01)]
  · show st.params.maxScaleBase * (1 - st.params.scaleVariance) ≤
      st.params.maxScaleBase *
        (1 + (rng 1 - 0.5) * 2 * st.params.scaleVariance)
    nlinarith [mul_nonneg (mul_nonneg hbase.le hvar.le) h10]
  · show st.params.maxScaleBase *
        (1 + (rng 1 - 0.5) * 2 * st.params.scaleVariance) <
      st.params.maxScaleBase * (1 + st.params.scaleVariance)
    nlinarith [mul_pos (mul_pos hbase hvar) (sub_pos.mpr h11)]
  · show -4 ≤ (rng 5 - 0.5) * 4 * 2 ∧ (rng 5 - 0.5) * 4 * 2 < 4
    constructor <;> linarith
  · show -4 ≤ (rng 6 - 0.5) * 4 * 2 ∧ (rng 6 - 0.5) * 4 * 2 < 4
    constructor <;> linarith
  · show -4 ≤ (rng 7 - 0.5) * 4 * 2 ∧ (rng 7 - 0.5) * 4 * 2 < 4
    constructor <;> linarith
  · -- the axis produced by a non-degenerate draw is unit length
    have hsqrt := Real.mul_self_sqrt hlenpos.le
    have hspos := Real.sqrt_pos.mpr hlenpos
    have haxv : Vec3.normSq (spawnDipole rng st j).axis =
        ((rng 2 - 0.5) * (rng 2 - 0.5) + (rng 3 - 0.5) * (rng 3 - 0.5) +
          (rng 4 - 0.5) * (rng 4 - 0.5)) *
        ((1 / Real.sqrt ((rng 2 - 0.5) * (rng 2 - 0.5) +
            (rng 3 - 0.5) * (rng 3 - 0.5) +
            (rng 4 - 0.5) * (rng 4 - 0.5))) *
          (1 / Real.sqrt ((rng 2 - 0.5) * (rng 2 - 0.5) +
            (rng 3 - 0.5) * (rng 3 - 0.5) +
            (rng 4 - 0.5) * (rng 4 - 0.5)))) := by
      show Vec3.normSq (Vec3.normalize (st.dip j).axis
        ⟨rng 2 - 0.5, rng 3 - 0.5, rng 4 - 0.5⟩) = _
      simp only [Vec3.normalize]
      rw [if_pos hlenpos]
      unfold Vec3.normSq
      ring
    rw [haxv, div_mul_div_comm, one_mul, hsqrt]
    rw [mul_one_div_cancel (ne_of_gt hlenpos)]
  · rw [createDipole_some hj]
    show (st.redBuf.write j _).data j = _
    simp [Buffer.write]
  · rw [createDipole_some hj]
    show (st.blueBuf.write j _).data j = _
    simp [Buffer.write]

/-- Witness for the amended C6: the spawn after `init` with all draws
equal to 1/4. -/
theorem spawn_initialization_witness :
    ((createDipole (fun _ => (1:ℝ)/4) stInit1).dip 0 =
      spawnDipole (fun _ => (1:ℝ)/4) stInit1 0) ∧
    Vec3.normSq (spawnDipole (fun _ => (1:ℝ)/4) stInit1 0).axis = 1 ∧
    (createDipole (fun _ => (1:ℝ)/4) stInit1).redBuf.data 0 =
      lobeMatrix (spawnDipole (fun _ => (1:ℝ)/4) stInit1 0).position
        (spawnDipole (fun _ => (1:ℝ)/4) stInit1 0).quaternion 0.001
        stInit1.matrixOffsetRed := by
  have h := spawn_initialization stInit1 (fun _ => (1:ℝ)/4) 0 rfl
    (by have h1 : stInit1.dipoles.length = 1 := rfl; omega)
    (fun k => by norm_num)
    (by rw [stInit1_params]; norm_num [pOne])
    (by rw [stInit1_params]; norm_num [pOne])
    (by rw [stInit1_params]; norm_num [pOne])
    (Or.inl (by norm_num))
  exact ⟨h.1, h.2.2.2.2.2.2.2.2.2.2.1, h.2.2.2.2.2.2.2.2.2.2.2.1⟩

/-- Claim C8 counterexample: at a tick whose timestamp precedes the stored
one the computed elapsed time is negative, and the code's unconditional
`life -= deltaTime * speed` INCREASES the active particle's remaining life
(from 11/5 to 27/10), so aging is not a no-op on a negative-dt tick. -/
theorem negative_dt_changes_age :
    dtOf stOne 600 < 0 ∧
    ((updateSimulation (fun _ => (0:ℝ)) 600 stOne).dip 0).life = 27/10 ∧
    (stOne.dip 0).life = 11/5 ∧
    ((updateSimulation (fun _ => (0:ℝ)) 600 stOne).dip 0).life ≠
      (stOne.dip 0).life := by
  have hdt : dtOf stOne 600 = -(1/2) := by
    unfold dtOf
    rw [if_pos (by norm_num [stOne] : (0:ℝ) < stOne.lastTimestamp)]
    norm_num [stOne]
  have hspawn : tickSpawn (fun _ => (0:ℝ)) 600 stOne =
      { stOne with lastTimestamp := 600 } := by
    unfold tickSpawn
    apply spawnPhase_of_neg
    rintro ⟨-, hne⟩
    exact hne rfl
  have hd : ¬ diesNow (dtOf stOne 600)
      ({ stOne with lastTimestamp := 600 } : WorkerState).params
      (({ stOne with lastTimestamp := 600 } : WorkerState).dip 0) := by
    show ¬ (dOne.life - dtOf stOne 600 * pOne.speed ≤ 0)
    rw [hdt]
    norm_num [dOne, pOne]
  have hfin := runActives_final (dtOf stOne 600)
    ({ stOne with lastTimestamp := 600 }) [0]
    (by intro a ha; rw [List.mem_singleton] at ha; subst ha; rfl)
    (by
      intro a ha
      rw [List.mem_singleton] at ha
      subst ha
      have h1 : ({ stOne with lastTimestamp := (600:ℝ) } :
        WorkerState).dipoles.length = 1 := rfl
      omega)
    (by simp) 0 (by simp)
  obtain ⟨hdip, -, -⟩ := hfin.2 hd
  have htick : updateSimulation (fun _ => (0:ℝ)) 600 stOne =
      publish (tickPre (fun _ => (0:ℝ)) 600 stOne) := by
    have hcnt : 0 < (tickLoop (fun _ => (0:ℝ)) 600 stOne).2.2 := by
      rw [tickLoop_updated, hspawn]
      show 0 < ([0] : List ℕ).length
      simp
    rw [updateSimulation_run rfl, if_pos hcnt]
  have hconn : (updateSimulation (fun _ => (0:ℝ)) 600 stOne).dip 0 =
      (runActives (dtOf stOne 600)
        ({ stOne with lastTimestamp := 600 }) [0]).1.dip 0 := by
    rw [htick]
    show (tickLoop (fun _ => (0:ℝ)) 600 stOne).1.dip 0 = _
    rw [tickLoop_def, hspawn]
    rfl
  have hlifev : ((updateSimulation (fun _ => (0:ℝ)) 600 stOne).dip 0).life =
      27/10 := by
    rw [hconn, hdip]
    show dOne.life - dtOf stOne 600 * pOne.speed = 27/10
    rw [hdt]
    norm_num [dOne, pOne]
  have hold : (stOne.dip 0).life = 11/5 := by
    show dOne.life = 11/5
    norm_num [dOne]
  refine ⟨by rw [hdt]; norm_num, hlifev, hold, ?_⟩
  rw [hlifev, hold]
  norm_num

/-- Claim C8 (amended): on a running tick whose computed dt is zero
(timestamp equal to a positive stored timestamp), aging is a no-op — no
active particle's remaining life changes, and the active and free lists
are unchanged — and the spawn probability, though still evaluated, is
`creationProbability * 0 = 0`, so no spawn occurs for nonnegative draws.
For negative dt the code is NOT a no-op: it subtracts `dt * speed`, which
increases the remaining life. -/
theorem zero_dt_no_aging_no_spawn (st : WorkerState) (rng : ℕ → ℝ) (ts : ℝ)
    (hInv : PoolInv st) (hrun : st.simulationRunning = true)
    (hlife : 0 < st.params.dipoleLifetime) (hrng : ∀ k, 0 ≤ rng k)
    (hts : st.lastTimestamp = ts) (htpos : 0 < st.lastTimestamp) :
    (∀ a ∈ st.activeDipoleIndices,
      ((updateSimulation rng ts st).dip a).life = (st.dip a).life) ∧
    (updateSimulation rng ts st).activeDipoleIndices =
      st.activeDipoleIndices ∧
    (updateSimulation rng ts st).instanceIndices = st.instanceIndices := by
  have hdt0 : dtOf st ts = 0 := by
    unfold dtOf
    rw [if_pos htpos, ← hts]
    simp
  have hnospawn : tickSpawn rng ts st = { st with lastTimestamp := ts } := by
    unfold tickSpawn
    apply spawnPhase_of_neg
    rintro ⟨hlt, -⟩
    rw [hdt0] at hlt
    simp only [mul_zero] at hlt
    exact absurd hlt (not_lt.mpr (hrng 0))
  have hInv1 := poolInv_tickSpawn rng ts st hInv hlife hrng
  have hnd : (tickSpawn rng ts st).activeDipoleIndices.reverse.Nodup :=
    List.nodup_reverse.mpr hInv1.active_nodup
  have hidx : ∀ b ∈ (tickSpawn rng ts st).activeDipoleIndices.reverse,
      ((tickSpawn rng ts st).dip b).instanceIndex = b :=
    fun b hb => hInv1.active_idx b (List.mem_reverse.mp hb)
  have hlen : ∀ b ∈ (tickSpawn rng ts st).activeDipoleIndices.reverse,
      b < (tickSpawn rng ts st).dipoles.length := fun b hb => by
    rw [hInv1.len_eq]; exact hInv1.active_lt b (List.mem_reverse.mp hb)
  have halive : ∀ b ∈ (tickSpawn rng ts st).activeDipoleIndices,
      ¬ diesNow (dtOf st ts) (tickSpawn rng ts st).params
        ((tickSpawn rng ts st).dip b) := by
    intro b hb
    have hbst : b ∈ st.activeDipoleIndices := by
      rw [hnospawn] at hb
      exact hb
    have hpos := (hInv.life_iff b (hInv.active_lt b hbst)).mpr hbst
    show ¬ (((tickSpawn rng ts st).dip b).life -
        dtOf st ts * (tickSpawn rng ts st).params.speed ≤ 0)
    rw [hnospawn, hdt0]
    show ¬ ((st.dip b).life - 0 * st.params.speed ≤ 0)
    simp only [zero_mul, sub_zero]
    linarith
  have hactive : (updateSimulation rng ts st).activeDipoleIndices =
      (tickPre rng ts st).activeDipoleIndices := by
    rw [updateSimulation_run hrun]
    split <;> rfl
  have hfreeq : (updateSimulation rng ts st).instanceIndices =
      (tickPre rng ts st).instanceIndices := by
    rw [updateSimulation_run hrun]
    split <;> rfl
  have hdipq : ∀ a, (updateSimulation rng ts st).dip a =
      (tickPre rng ts st).dip a := by
    intro a
    rw [updateSimulation_run hrun]
    split <;> rfl
  have hsurv := runActives_surv (dtOf st ts) (tickSpawn rng ts st)
    (tickSpawn rng ts st).activeDipoleIndices.reverse hnd
  rw [List.reverse_reverse] at hsurv
  have hfree := runActives_free (dtOf st ts) (tickSpawn rng ts st)
    (tickSpawn rng ts st).activeDipoleIndices.reverse hidx hnd
  refine ⟨?_, ?_, ?_⟩
  · intro a ha
    have ha1 : a ∈ (tickSpawn rng ts st).activeDipoleIndices := by
      rw [hnospawn]
      exact ha
    obtain ⟨hdip, -, -⟩ := (runActives_final (dtOf st ts) (tickSpawn rng ts st)
      (tickSpawn rng ts st).activeDipoleIndices.reverse hidx hlen hnd a
      (List.mem_reverse.mpr ha1)).2 (halive a ha1)
    rw [hdipq a]
    show ((runActives (dtOf st ts) (tickSpawn rng ts st)
      (tickSpawn rng ts st).activeDipoleIndices.reverse).1.dip a).life =
      (st.dip a).life
    rw [hdip]
    show ((tickSpawn rng ts st).dip a).life -
        dtOf st ts * (tickSpawn rng ts st).params.speed = (st.dip a).life
    rw [hnospawn, hdt0]
    show (st.dip a).life - 0 * st.params.speed = (st.dip a).life
    ring
  · rw [hactive]
    show (tickLoop rng ts st).2.1 = st.activeDipoleIndices
    rw [tickLoop_def, hsurv,
        List.filter_eq_self.mpr (fun b hb => by simp [halive b hb])]
    rw [hnospawn]
  · rw [hfreeq]
    show (tickLoop rng ts st).1.instanceIndices = st.instanceIndices
    rw [tickLoop_def, hfree,
        List.filter_eq_nil_iff.mpr (fun b hb => by
          simp [halive b (List.mem_reverse.mp hb)])]
    rw [List.append_nil, hnospawn]

/-- Witness for the amended C8: `stOne` ticked at its own stored
timestamp. -/
theorem zero_dt_no_aging_no_spawn_witness :
    (∀ a ∈ stOne.activeDipoleIndices,
      ((updateSimulation (fun _ => (0:ℝ)) 1100 stOne).dip a).life =
        (stOne.dip a).life) ∧
    (updateSimulation (fun _ => (0:ℝ)) 1100 stOne).activeDipoleIndices =
      stOne.activeDipoleIndices ∧
    (updateSimulation (fun _ => (0:ℝ)) 1100 stOne).instanceIndices =
      stOne.instanceIndices :=
  zero_dt_no_aging_no_spawn stOne (fun _ => (0:ℝ)) 1100 poolInv_stOne rfl
    (by norm_num [stOne, pOne]) (fun k => le_refl 0) rfl
    (by norm_num [stOne])

/-- Witness for C5 at concrete inputs. -/
theorem spawn_gating_witness :
    ((updateSimulation (fun _ => (0:ℝ)) 1100 stOne).activeDipoleIndices.length ≤
      stOne.activeDipoleIndices.length + 1) ∧
    ((spawnPhase (fun _ => (0:ℝ)) 1 stOne).activeDipoleIndices.length =
        stOne.activeDipoleIndices.length + 1 ↔
      ((0:ℝ) < stOne.params.creationProbability * 1 ∧
        stOne.instanceIndices ≠ [])) ∧
    (stOne.instanceIndices = [] →
      spawnPhase (fun _ => (0:ℝ)) 1 stOne = stOne) :=
  spawn_gating stOne (fun _ => (0:ℝ)) 1100 1

/-- Claim C9 counterexample: the `init` handler never touches
`simulationRunning`, so re-initializing a worker that was started keeps
the simulation running — `init` does not reset it to stopped. -/
theorem init_does_not_stop :
    (handleMessage (.start 100) initialWorkerState).simulationRunning =
      true ∧
    (handleMessage (.init 1 pOne (9/100))
      (handleMessage (.start 100) initialWorkerState)).simulationRunning =
      true :=
  ⟨rfl, rfl⟩

/-- Claim C9 (amended): an `init` message with capacity `n`, configuration
`p` and per-lobe offset `off` rebuilds the pool (all `n` slot indices on
the free list in order, active list empty, each record zero-lifed and
remembering its slot), stores the new parameters, computes the fixed
per-lobe translations `+off` and `-off` along the y axis, allocates two
fresh zero-filled `n·16·4`-byte transform buffers after immediately
posting an initial equally-sized pair, and thereby resets the simulation
to empty — but it does NOT stop it: the running flag and the stored
timestamp are left unchanged. -/
theorem init_effect (n : ℕ) (p : Params) (off : ℝ) (st : WorkerState) :
    (handleMessage (.init n p off) st).maxDipoles = n ∧
    (handleMessage (.init n p off) st).params = p ∧
    (handleMessage (.init n p off) st).lobeOffset = off ∧
    (handleMessage (.init n p off) st).instanceIndices = List.range n ∧
    (handleMessage (.init n p off) st).activeDipoleIndices = [] ∧
    (handleMessage (.init n p off) st).dipoles.length = n ∧
    (∀ i < n, (handleMessage (.init n p off) st).dip i = initDipole i ∧
      ((handleMessage (.init n p off) st).dip i).life = 0) ∧
    (handleMessage (.init n p off) st).matrixOffsetRed =
      Mat4.makeTranslation 0 off 0 ∧
    (handleMessage (.init n p off) st).matrixOffsetBlue =
      Mat4.makeTranslation 0 (-off) 0 ∧
    (handleMessage (.init n p off) st).redBuf.bytes = n * 16 * 4 ∧
    (handleMessage (.init n p off) st).blueBuf.bytes = n * 16 * 4 ∧
    (∀ k, (handleMessage (.init n p off) st).redBuf.data k = Mat4.zero ∧
      (handleMessage (.init n p off) st).blueBuf.data k = Mat4.zero) ∧
    (∃ r b, (handleMessage (.init n p off) st).posted =
      st.posted ++ [(r, b)] ∧ r.bytes = n * 16 * 4 ∧ b.bytes = n * 16 * 4) ∧
    (handleMessage (.init n p off) st).simulationRunning =
      st.simulationRunning ∧
    (handleMessage (.init n p off) st).lastTimestamp = st.lastTimestamp := by
  refine ⟨rfl, rfl, rfl, rfl, rfl, ?_, ?_, rfl, rfl, rfl, rfl,
    fun k => ⟨rfl, rfl⟩,
    ⟨freshBuffer st.nextGen n, freshBuffer (st.nextGen + 1) n, rfl, rfl, rfl⟩,
    rfl, rfl⟩
  · show ((List.range n).map initDipole).length = n
    simp
  · intro i hi
    have hd : (handleMessage (.init n p off) st).dip i = initDipole i := by
      show ((List.range n).map initDipole).getD i defaultDipole = _
      rw [getD_map_range, if_pos hi]
    exact ⟨hd, by rw [hd]; rfl⟩

/-- Witness for the amended C9 at capacity 1 from a freshly loaded
worker. -/
theorem init_effect_witness :
    (handleMessage (.init 1 pOne (9/100))
      initialWorkerState).maxDipoles = 1 ∧
    (handleMessage (.init 1 pOne (9/100)) initialWorkerState).params = pOne ∧
    (handleMessage (.init 1 pOne (9/100)) initialWorkerState).lobeOffset =
      9/100 ∧
    (handleMessage (.init 1 pOne (9/100)) initialWorkerState).instanceIndices =
      List.range 1 ∧
    (handleMessage (.init 1 pOne (9/100))
      initialWorkerState).activeDipoleIndices = [] ∧
    (handleMessage (.init 1 pOne (9/100))
      initialWorkerState).dipoles.length = 1 ∧
    (∀ i < 1, (handleMessage (.init 1 pOne (9/100)) initialWorkerState).dip i =
        initDipole i ∧
      ((handleMessage (.init 1 pOne (9/100)) initialWorkerState).dip i).life =
        0) ∧
    (handleMessage (.init 1 pOne (9/100)) initialWorkerState).matrixOffsetRed =
      Mat4.makeTranslation 0 (9/100) 0 ∧
    (handleMessage (.init 1 pOne (9/100)) initialWorkerState).matrixOffsetBlue =
      Mat4.makeTranslation 0 (-(9/100)) 0 ∧
    (handleMessage (.init 1 pOne (9/100)) initialWorkerState).redBuf.bytes =
      1 * 16 * 4 ∧
    (handleMessage (.init 1 pOne (9/100)) initialWorkerState).blueBuf.bytes =
      1 * 16 * 4 ∧
    (∀ k, (handleMessage (.init 1 pOne (9/100))
        initialWorkerState).redBuf.data k = Mat4.zero ∧
      (handleMessage (.init 1 pOne (9/100))
        initialWorkerState).blueBuf.data k = Mat4.zero) ∧
    (∃ r b, (handleMessage (.init 1 pOne (9/100)) initialWorkerState).posted =
      initialWorkerState.posted ++ [(r, b)] ∧ r.bytes = 1 * 16 * 4 ∧
      b.bytes = 1 * 16 * 4) ∧
    (handleMessage (.init 1 pOne (9/100))
      initialWorkerState).simulationRunning =
      initialWorkerState.simulationRunning ∧
    (handleMessage (.init 1 pOne (9/100)) initialWorkerState).lastTimestamp =
      initialWorkerState.lastTimestamp :=
  init_effect 1 pOne (9/100) initialWorkerState

/-- Claim C10: the `returnBuffers` handler unconditionally replaces the
worker's current write pair (buffers and their views) with the returned
pair — discarding whatever had been written into the current write
buffers since the last publish — and changes nothing else, so the returned
pair's contents become the basis of the next published frame. -/
theorem return_buffers_effect (st : WorkerState) (r b : Buffer) :
    handleMessage (.returnBuffers r b) st =
      { st with redBuf := r, blueBuf := b } := rfl

end

end DipoleWorker
